import Mathlib

/-!
Shallow embedding of the DX chess-staking server (the JSON-file variant,
`src/unnamed/part_001`), covering the wallet ledger, the challenge registry,
the match state machine, appeals and disbursement.

Modelling conventions:
* Monetary amounts and the request `amount`/`stake_amount` fields are modelled
  as exact rationals (`ℚ`); the JS source stores them as JS numbers.
* Timestamps are `Int` milliseconds since the epoch.  The source stores ISO
  strings and compares them through `new Date`; comparisons agree.
* A route handler is a function `DB → args → Except (Nat × String) DB`:
  an error is the pair of HTTP status and the handler's error message, in
  which case the handler returned before mutating the store; a success is
  the updated store.  Audit-only text fields (descriptions, reference ids,
  `created_at`/`updated_at` timestamps) are omitted from the records.
* `saveDatabase` (durable persistence) is out of scope; the in-memory store
  is the state.
-/

namespace ChessBetting

/-- Server configuration (`CONFIG` in the source). -/
def MIN_STAKE : ℚ := 500

def PLATFORM_FEE_PERCENTAGE : ℚ := 3 / 2

def APPEAL_PERIOD_MS : Int := 5 * 60 * 1000

def CHALLENGE_EXPIRY_MS : Int := 15 * 60 * 1000

inductive ChallengeStatus
  | pending
  | accepted
  | declined
  | cancelled
  deriving DecidableEq, Repr

inductive MatchStatus
  | in_progress
  | awaiting_appeal
  | draw
  | appealed
  | disputed
  | disbursed
  deriving DecidableEq, Repr

inductive AppealStatus
  | pending
  | upheld
  | rejected
  deriving DecidableEq, Repr

inductive TxType
  | deposit
  | withdrawal
  | winning
  | refund
  | platform_fee
  deriving DecidableEq, Repr

/-- A row of `db.users`. -/
structure User where
  id : Nat
  username : String
  email : String
  phone : String
  full_name : String
  lichess_username : Option String
  wallet_balance : ℚ
  locked_balance : ℚ
  total_staked : ℚ
  total_winnings : ℚ
  matches_won : Nat
  matches_lost : Nat
  matches_draw : Nat
  is_admin : Bool
  deriving DecidableEq, Repr

/-- A row of `db.challenges`. -/
structure Challenge where
  id : Nat
  challenge_code : String
  creator_id : Nat
  opponent_id : Nat
  stake_amount : ℚ
  time_control : String
  is_rated : Bool
  status : ChallengeStatus
  expires_at : Int
  total_pot : ℚ
  dx_fee : ℚ
  winner_payout : ℚ
  deriving DecidableEq, Repr

/-- A row of `db.gameMatches`.  The insert in the accept route writes
`payout_amount: 0` and never writes a `winner_payout` property, so the
latter is an `Option` that no route ever sets. -/
structure GameMatch where
  id : Nat
  challenge_id : Nat
  creator_id : Nat
  opponent_id : Nat
  stake_amount : ℚ
  time_control : String
  is_rated : Bool
  status : MatchStatus
  lichess_game_id : Option String
  dx_fee : ℚ
  payout_amount : ℚ
  winner_payout : Option ℚ
  winner_id : Option Nat
  appeal_deadline : Option Int
  deriving DecidableEq, Repr

/-- A row of `db.appeals`. -/
structure Appeal where
  id : Nat
  match_id : Nat
  user_id : Nat
  reason : String
  status : AppealStatus
  deriving DecidableEq, Repr

/-- A row of `db.transactions` (`status` is absent on the rows the
disbursement route inserts, hence an `Option`). -/
structure Tx where
  user_id : Nat
  txType : TxType
  amount : ℚ
  txStatus : Option String
  deriving DecidableEq, Repr

/-- The JSON-file store `db`. -/
structure DB where
  users : List User
  challenges : List Challenge
  gameMatches : List GameMatch
  transactions : List Tx
  appeals : List Appeal
  deriving DecidableEq, Repr

def emptyDB : DB := ⟨[], [], [], [], []⟩

/-- `generateId`: one more than the largest existing id (1 on an empty
table).  Ids are positive, so folding from 0 agrees with the source's
`Math.max(...ids) + 1`. -/
def generateId {α : Type} (getId : α → Nat) (arr : List α) : Nat :=
  (arr.foldr (fun x acc => max (getId x) acc) 0) + 1

/-- `update(arr, id, updates)` / in-place mutation of the object returned by
a `find`: both rewrite the first row matching the predicate. -/
def updateFirst {α : Type} (p : α → Bool) (f : α → α) : List α → List α
  | [] => []
  | x :: xs => if p x then f x :: xs else x :: updateFirst p f xs

def updateUser (db : DB) (uid : Nat) (f : User → User) : DB :=
  { db with users := updateFirst (fun u => decide (u.id = uid)) f db.users }

def updateChallenge (db : DB) (cid : Nat) (f : Challenge → Challenge) : DB :=
  { db with challenges := updateFirst (fun c => decide (c.id = cid)) f db.challenges }

def updateMatch (db : DB) (mid : Nat) (f : GameMatch → GameMatch) : DB :=
  { db with gameMatches := updateFirst (fun m => decide (m.id = mid)) f db.gameMatches }

/-- JS `x || y` on an optional number (`undefined`/`null` and `0` both fall
through to `y`). -/
def jsOrQ (a : Option ℚ) (b : ℚ) : ℚ :=
  match a with
  | none => b
  | some x => if x = 0 then b else x

/-- JS `x || ''` on an optional string. -/
def jsOrStr (a : Option String) : String := a.getD ""

/-- JS `toLowerCase` restricted to ASCII, which covers Lichess handles
(`[a-zA-Z0-9_-]`). -/
def lowerStr (s : String) : String := ⟨s.data.map Char.toLower⟩

/-- JS `new Date(x)` of a nullable timestamp: `new Date(null)` is the epoch. -/
def jsDate (a : Option Int) : Int := a.getD 0

/-- `calculateFee` (`part_001` lines 165-172). -/
structure FeeBreakdown where
  totalPot : ℚ
  fee : ℚ
  winnerPayout : ℚ
  deriving DecidableEq, Repr

def calculateFee (stakeAmount : ℚ) : FeeBreakdown :=
  let totalPot := stakeAmount * 2
  { totalPot := totalPot
    fee := totalPot * PLATFORM_FEE_PERCENTAGE / 100
    winnerPayout := totalPot - totalPot * PLATFORM_FEE_PERCENTAGE / 100 }

/-- Result of a route handler: HTTP error (status, message) or new store. -/
abbrev Res := Except (Nat × String) DB

/-- `/^[a-zA-Z0-9_]{3,20}$/`. -/
def validUsername (s : String) : Bool :=
  decide (3 ≤ s.length) && decide (s.length ≤ 20) &&
    s.toList.all (fun c => c.isAlphanum || c == '_')

/-- `validatePhone`: at least 10 and at most 15 digit characters. -/
def validPhone (phone : String) : Bool :=
  let cleaned := (phone.toList.filter Char.isDigit).length
  decide (10 ≤ cleaned) && decide (cleaned ≤ 15)

/-- JS `String.prototype.trim`: whitespace dropped from both ends.  (The
character-list form of `String.trim`, kept evaluable.) -/
def trimStr (s : String) : String :=
  ⟨((s.data.dropWhile Char.isWhitespace).reverse.dropWhile Char.isWhitespace).reverse⟩

/-- `validateFullName`: trimmed length between 2 and 100. -/
def validFullName (nm : String) : Bool :=
  decide (2 ≤ (trimStr nm).length) && decide ((trimStr nm).length ≤ 100)

/-- The user row the register route inserts: fresh id, zero balances and
counters. -/
def freshUser (db : DB) (username email phone full_name : String) : User :=
  { id := generateId (fun u => u.id) db.users
    username := username
    email := email
    phone := phone
    full_name := full_name
    lichess_username := none
    wallet_balance := 0
    locked_balance := 0
    total_staked := 0
    total_winnings := 0
    matches_won := 0
    matches_lost := 0
    matches_draw := 0
    is_admin := false }

/-- `POST /api/auth/register`.  Password hashing is an out-of-scope external
collaborator and the hash is not stored in the model. -/
def registerUser (db : DB) (username email password phone full_name : String) : Res :=
  if username = "" ∨ email = "" ∨ password = "" ∨ phone = "" ∨ full_name = "" then
    .error (400, "All fields are required")
  else if password.length < 6 then
    .error (400, "Password must be at least 6 characters")
  else if ¬ validUsername username then
    .error (400, "Username must be 3-20 alphanumeric characters or underscores")
  else if ¬ validPhone phone then
    .error (400, "Invalid phone number format")
  else if ¬ validFullName full_name then
    .error (400, "Full name must be 2-100 characters")
  else
    match db.users.find? (fun u =>
        decide (u.username = username) || decide (u.email = email) ||
        decide (u.phone = phone)) with
    | some existing =>
      if existing.username = username then .error (400, "Username already taken")
      else if existing.email = email then .error (400, "Email already registered")
      else .error (400, "Phone number already registered")
    | none =>
      .ok { db with users := db.users ++
        [freshUser db username email phone full_name] }

/-- `POST /api/wallet/deposit`. -/
def deposit (db : DB) (callerId : Nat) (amount : ℚ) : Res :=
  if amount < 100 then
    .error (400, "Minimum deposit is ₦100")
  else
    match db.users.find? (fun u => decide (u.id = callerId)) with
    | none => .error (500, "Internal server error")
    | some _ =>
      let db1 := updateUser db callerId
        (fun u => { u with wallet_balance := u.wallet_balance + amount })
      .ok { db1 with transactions :=
        db1.transactions ++ [⟨callerId, .deposit, amount, some "completed"⟩] }

/-- `POST /api/wallet/withdraw`. -/
def withdraw (db : DB) (callerId : Nat) (amount : ℚ) : Res :=
  if amount < 500 then
    .error (400, "Minimum withdrawal is ₦500")
  else
    match db.users.find? (fun u => decide (u.id = callerId)) with
    | none => .error (500, "Internal server error")
    | some user =>
      if user.wallet_balance < amount then
        .error (400, "Insufficient balance")
      else
        let db1 := updateUser db callerId
          (fun u => { u with wallet_balance := u.wallet_balance - amount })
        .ok { db1 with transactions :=
          db1.transactions ++ [⟨callerId, .withdrawal, amount, some "pending"⟩] }

/-- `POST /api/challenges/send`.  The shareable code is random in the source
and is a parameter here. -/
def sendChallenge (db : DB) (now : Int) (callerId : Nat)
    (opponent_username : String) (stake_amount : ℚ)
    (time_control : String) (is_rated : Bool) (code : String) : Res :=
  if opponent_username = "" then
    .error (400, "Opponent username required")
  else if stake_amount < MIN_STAKE then
    .error (400, "Minimum stake is ₦500")
  else
    match db.users.find? (fun u => decide (u.username = opponent_username)) with
    | none => .error (404, "User not found")
    | some opp =>
      if opp.id = callerId then
        .error (400, "Cannot challenge yourself")
      else
        match db.users.find? (fun u => decide (u.id = callerId)) with
        | none => .error (500, "Internal server error")
        | some user =>
          if user.wallet_balance < stake_amount then
            .error (400, "Insufficient wallet balance")
          else if (db.challenges.find? (fun c =>
              decide (c.creator_id = callerId) && decide (c.opponent_id = opp.id) &&
              decide (c.status = ChallengeStatus.pending) &&
              decide (now < c.expires_at))).isSome then
            .error (400, "You already have a pending challenge to this user")
          else
            let fb := calculateFee stake_amount
            .ok { db with challenges := db.challenges ++ [{
              id := generateId (fun c => c.id) db.challenges
              challenge_code := code
              creator_id := callerId
              opponent_id := opp.id
              stake_amount := stake_amount
              time_control := time_control
              is_rated := is_rated
              status := .pending
              expires_at := now + CHALLENGE_EXPIRY_MS
              total_pot := fb.totalPot
              dx_fee := fb.fee
              winner_payout := fb.winnerPayout }] }

/-- Accept route, accepter side: stake moves from available to locked. -/
def lockAccepter (s : ℚ) : User → User := fun u =>
  { u with wallet_balance := u.wallet_balance - s
           locked_balance := u.locked_balance + s }

/-- Accept route, creator side: the stake is added to the locked balance
only — the route never debits the creator's wallet. -/
def lockCreator (s : ℚ) : User → User := fun u =>
  { u with locked_balance := u.locked_balance + s }

/-- The match row the accept route inserts (`payout_amount: 0`, no
`winner_payout`). -/
def matchFromChallenge (ms : List GameMatch) (ch : Challenge) : GameMatch :=
  { id := generateId (fun m => m.id) ms
    challenge_id := ch.id
    creator_id := ch.creator_id
    opponent_id := ch.opponent_id
    stake_amount := ch.stake_amount
    time_control := ch.time_control
    is_rated := ch.is_rated
    status := .in_progress
    lichess_game_id := none
    dx_fee := (calculateFee ch.stake_amount).fee
    payout_amount := 0
    winner_payout := none
    winner_id := none
    appeal_deadline := none }

/-- `POST /api/challenges/:code/accept`.  The source debits the accepter,
adds the stake to the creator's locked balance (without debiting the
creator's wallet), marks the challenge accepted and inserts the match.  The
creator row is read only after the accepter has been debited; since users
are never deleted that read cannot fail, and the model checks both rows up
front. -/
def acceptChallenge (db : DB) (now : Int) (callerId : Nat) (code : String) : Res :=
  match db.challenges.find? (fun c =>
      decide (c.challenge_code = code) &&
      decide (c.status = ChallengeStatus.pending) &&
      decide (c.opponent_id = callerId)) with
  | none => .error (404, "Challenge not found or expired")
  | some ch =>
    if ch.expires_at < now then
      .error (400, "Challenge has expired")
    else
      match db.users.find? (fun u => decide (u.id = callerId)) with
      | none => .error (500, "Internal server error")
      | some opp =>
        if opp.wallet_balance < ch.stake_amount then
          .error (400, "Insufficient balance to accept challenge")
        else
          match db.users.find? (fun u => decide (u.id = ch.creator_id)) with
          | none => .error (500, "Internal server error")
          | some _ =>
            let db1 := updateUser db callerId (lockAccepter ch.stake_amount)
            let db2 := updateUser db1 ch.creator_id (lockCreator ch.stake_amount)
            let db3 := updateChallenge db2 ch.id
              (fun c => { c with status := .accepted })
            .ok { db3 with gameMatches :=
              db3.gameMatches ++ [matchFromChallenge db3.gameMatches ch] }

/-- `POST /api/challenges/:code/decline`. -/
def declineChallenge (db : DB) (callerId : Nat) (code : String) : Res :=
  match db.challenges.find? (fun c =>
      decide (c.challenge_code = code) &&
      decide (c.status = ChallengeStatus.pending)) with
  | none => .error (404, "Challenge not found")
  | some ch =>
    if ch.opponent_id ≠ callerId ∧ ch.creator_id ≠ callerId then
      .error (403, "Not authorized")
    else
      .ok (updateChallenge db ch.id (fun c => { c with status := .declined }))

/-- `POST /api/challenges/:code/cancel`. -/
def cancelChallenge (db : DB) (callerId : Nat) (code : String) : Res :=
  match db.challenges.find? (fun c =>
      decide (c.challenge_code = code) &&
      decide (c.status = ChallengeStatus.pending) &&
      decide (c.creator_id = callerId)) with
  | none => .error (404, "Challenge not found or cannot be cancelled")
  | some ch =>
    .ok (updateChallenge db ch.id (fun c => { c with status := .cancelled }))

/-- The part of a Lichess game-export record the result mapping reads.
`winner` is `some "white"`, `some "black"`, or `none` for a null winner. -/
structure LichessPlayer where
  username : Option String
  deriving DecidableEq, Repr

structure LichessGame where
  winner : Option String
  white : Option LichessPlayer
  black : Option LichessPlayer
  deriving DecidableEq, Repr

def playerName (p : Option LichessPlayer) : String :=
  jsOrStr (p.bind (fun q => q.username))

/-- The two-way comparison of one winning side's handle against the two
participants: first match wins, no match leaves the winner null. -/
def pick2 (c1 c2 : Prop) [Decidable c1] [Decidable c2] (a b : Nat) : Option Nat :=
  if c1 then some a else if c2 then some b else none

/-- The winner-mapping block of the submit-result route: null winner means
a draw (no winner id); otherwise the winning side is matched
case-insensitively against each participant's linked handle, and an
unmappable side leaves the winner id null. -/
def resolveWinner (db : DB) (m : GameMatch) (g : LichessGame) : Option Nat :=
  if g.winner = none then none
  else
    let creator := db.users.find? (fun u => decide (u.id = m.creator_id))
    let opponent := db.users.find? (fun u => decide (u.id = m.opponent_id))
    let creatorLichess :=
      lowerStr (jsOrStr (creator.bind (fun u => u.lichess_username)))
    let opponentLichess :=
      lowerStr (jsOrStr (opponent.bind (fun u => u.lichess_username)))
    let whitePlayer := lowerStr (playerName g.white)
    let blackPlayer := lowerStr (playerName g.black)
    if g.winner = some "white" then
      pick2 (whitePlayer = creatorLichess) (whitePlayer = opponentLichess)
        m.creator_id m.opponent_id
    else if g.winner = some "black" then
      pick2 (blackPlayer = creatorLichess) (blackPlayer = opponentLichess)
        m.creator_id m.opponent_id
    else none

/-- `POST /api/matches/:id/submit-result`.  The Lichess fetch is an external
collaborator; its (possibly failed) response is a parameter. -/
def submitResult (db : DB) (now : Int) (callerId : Nat) (matchId : Nat)
    (lichess_game_id : String) (gameData : Option LichessGame) : Res :=
  if lichess_game_id = "" then
    .error (400, "Lichess game ID required")
  else
    match db.gameMatches.find? (fun m => decide (m.id = matchId)) with
    | none => .error (404, "Match not found")
    | some m =>
      if m.creator_id ≠ callerId ∧ m.opponent_id ≠ callerId then
        .error (403, "Not authorized")
      else if m.status ≠ MatchStatus.in_progress then
        .error (400, "Match is not in progress")
      else
        match gameData with
        | none => .error (400, "Could not verify game on Lichess")
        | some g =>
          let isDraw := g.winner = none
          .ok (updateMatch db m.id (fun mm => { mm with
            lichess_game_id := some lichess_game_id
            status := if isDraw then .draw else .awaiting_appeal
            winner_id := resolveWinner db m g
            appeal_deadline := some (now + APPEAL_PERIOD_MS) }))

/-- `POST /api/matches/:id/appeal`. -/
def submitAppeal (db : DB) (now : Int) (callerId : Nat) (matchId : Nat)
    (reason : String) : Res :=
  match db.gameMatches.find? (fun m => decide (m.id = matchId)) with
  | none => .error (404, "Match not found")
  | some m =>
    if m.creator_id ≠ callerId ∧ m.opponent_id ≠ callerId then
      .error (403, "Not authorized")
    else if m.status ≠ MatchStatus.awaiting_appeal then
      .error (400, "Match is not awaiting appeal")
    else if jsDate m.appeal_deadline < now then
      .error (400, "Appeal deadline has passed")
    else if (db.appeals.find? (fun a =>
        decide (a.match_id = m.id) && decide (a.user_id = callerId))).isSome then
      .error (400, "You have already submitted an appeal")
    else
      let db1 := { db with appeals := db.appeals ++ [{
        id := generateId (fun a => a.id) db.appeals
        match_id := m.id
        user_id := callerId
        reason := if reason = "" then "Disputed result" else reason
        status := .pending }] }
      .ok (updateMatch db1 m.id (fun mm => { mm with status := .appealed }))

/-- Draw disbursement, per participant: stake refunded from locked to
available. -/
def refundDraw (s : ℚ) : User → User := fun u =>
  { u with wallet_balance := u.wallet_balance + s
           locked_balance := u.locked_balance - s
           matches_draw := u.matches_draw + 1 }

/-- Winner disbursement: the credited amount is added to available, the
stake leaves locked. -/
def creditWinner (credit s : ℚ) : User → User := fun u =>
  { u with wallet_balance := u.wallet_balance + credit
           locked_balance := u.locked_balance - s
           total_winnings := u.total_winnings + credit
           matches_won := u.matches_won + 1 }

/-- Loser disbursement: the stake leaves locked with no available credit. -/
def debitLoser (s : ℚ) : User → User := fun u =>
  { u with locked_balance := u.locked_balance - s
           matches_lost := u.matches_lost + 1
           total_staked := u.total_staked + s }

def markDisbursed : GameMatch → GameMatch := fun mm =>
  { mm with status := .disbursed }

/-- `POST /api/matches/:id/process-disbursement`.  The route is
authenticated but the handler never reads `req.user`; `callerId` is the
authenticated account, carried to mirror the route signature. -/
def processDisbursement (db : DB) (now : Int) (callerId : Nat) (matchId : Nat) : Res :=
  match db.gameMatches.find? (fun m => decide (m.id = matchId)) with
  | none => .error (404, "Match not found")
  | some m =>
    if m.status ≠ MatchStatus.awaiting_appeal ∧ m.status ≠ MatchStatus.draw then
      .error (400, "Match is not ready for disbursement")
    else if m.status = MatchStatus.awaiting_appeal ∧ m.appeal_deadline.isSome ∧
        now < jsDate m.appeal_deadline then
      .error (400, "Appeal deadline has not passed yet")
    else if m.status = MatchStatus.awaiting_appeal ∧ m.appeal_deadline.isSome ∧
        (db.appeals.find? (fun a =>
          decide (a.match_id = m.id) &&
          decide (a.status = AppealStatus.pending))).isSome then
      .error (400, "There are pending appeals for this match")
    else
      match db.users.find? (fun u => decide (u.id = m.creator_id)),
            db.users.find? (fun u => decide (u.id = m.opponent_id)) with
      | none, _ => .error (500, "Internal server error")
      | _, none => .error (500, "Internal server error")
      | some _, some _ =>
        if m.status = MatchStatus.draw then
          let db1 := updateUser db m.creator_id (refundDraw m.stake_amount)
          let db2 := updateUser db1 m.opponent_id (refundDraw m.stake_amount)
          let db3 := { db2 with transactions := db2.transactions ++
            [⟨m.creator_id, .refund, m.stake_amount, none⟩,
             ⟨m.opponent_id, .refund, m.stake_amount, none⟩] }
          .ok (updateMatch db3 m.id markDisbursed)
        else
          match m.winner_id with
          | some wid =>
            match db.users.find? (fun u => decide (u.id = wid)) with
            | none => .error (500, "Internal server error")
            | some w =>
              let loserId := if w.id = m.creator_id then m.opponent_id else m.creator_id
              let credit := jsOrQ m.winner_payout m.payout_amount
              let db1 := updateUser db wid (creditWinner credit m.stake_amount)
              let db2 := updateUser db1 loserId (debitLoser m.stake_amount)
              let db3 := { db2 with transactions := db2.transactions ++
                [⟨wid, .winning, credit, none⟩,
                 ⟨0, .platform_fee, m.dx_fee, none⟩] }
              .ok (updateMatch db3 m.id markDisbursed)
          | none =>
            .ok (updateMatch db m.id markDisbursed)

/-- One request against the store: the defined operations of the claim list.
`now` is the request's arrival time; external inputs (challenge codes, the
Lichess response) are carried in the operation. -/
inductive Op
  | register (username email password phone full_name : String)
  | deposit (callerId : Nat) (amount : ℚ)
  | withdraw (callerId : Nat) (amount : ℚ)
  | send (now : Int) (callerId : Nat) (opponent_username : String)
      (stake : ℚ) (time_control : String) (is_rated : Bool) (code : String)
  | accept (now : Int) (callerId : Nat) (code : String)
  | decline (callerId : Nat) (code : String)
  | cancel (callerId : Nat) (code : String)
  | submit (now : Int) (callerId : Nat) (matchId : Nat) (gameId : String)
      (gameData : Option LichessGame)
  | appealFile (now : Int) (callerId : Nat) (matchId : Nat) (reason : String)
  | disburse (now : Int) (callerId : Nat) (matchId : Nat)

def runOp (db : DB) : Op → Res
  | .register u e pw ph fn => registerUser db u e pw ph fn
  | .deposit c a => deposit db c a
  | .withdraw c a => withdraw db c a
  | .send now c o s tc r code => sendChallenge db now c o s tc r code
  | .accept now c code => acceptChallenge db now c code
  | .decline c code => declineChallenge db c code
  | .cancel c code => cancelChallenge db c code
  | .submit now c mid gid g => submitResult db now c mid gid g
  | .appealFile now c mid r => submitAppeal db now c mid r
  | .disburse now c mid => processDisbursement db now c mid

/-- A failed request leaves the store as it was. -/
def applyOp (db : DB) (op : Op) : DB :=
  match runOp db op with
  | .ok db2 => db2
  | .error _ => db

def applyOps (db : DB) (ops : List Op) : DB := ops.foldl applyOp db


/-! ### Concrete fixtures

Two funded users, a pending challenge from alice (id 1) to bob (id 2) with
stake 1000, and the Lichess responses used to exercise the result paths. -/

def sampleAlice : User :=
  { id := 1, username := "alice", email := "a@x.co", phone := "0123456789",
    full_name := "Alice A", lichess_username := some "AliceL", wallet_balance := 5000,
    locked_balance := 0, total_staked := 0, total_winnings := 0, matches_won := 0,
    matches_lost := 0, matches_draw := 0, is_admin := false }

def sampleBob : User :=
  { id := 2, username := "bob", email := "b@x.co", phone := "0123456788",
    full_name := "Bob B", lichess_username := some "BobL", wallet_balance := 5000,
    locked_balance := 0, total_staked := 0, total_winnings := 0, matches_won := 0,
    matches_lost := 0, matches_draw := 0, is_admin := false }

def sampleChallenge : Challenge :=
  { id := 1, challenge_code := "DXTEST", creator_id := 1, opponent_id := 2,
    stake_amount := 1000, time_control := "blitz", is_rated := false, status := .pending,
    expires_at := 1000000, total_pot := 2000, dx_fee := 30, winner_payout := 1970 }

def sampleDB : DB :=
  { users := [sampleAlice, sampleBob], challenges := [sampleChallenge],
    gameMatches := [], transactions := [], appeals := [] }

/-- Bob (the challenge target) accepts at time 0. -/
def acceptedDB : DB := applyOp sampleDB (.accept 0 2 "DXTEST")

/-- White won and white's handle is bob's linked handle (case differs). -/
def gameBobWins : LichessGame :=
  { winner := some "white", white := some ⟨some "BobL"⟩, black := some ⟨some "AliceL"⟩ }

/-- Null winner: a draw. -/
def gameDrawn : LichessGame :=
  { winner := none, white := some ⟨some "BobL"⟩, black := some ⟨some "AliceL"⟩ }

/-- White won but neither side's handle matches either participant. -/
def gameStranger : LichessGame :=
  { winner := some "white", white := some ⟨some "zz9"⟩, black := some ⟨some "yy8"⟩ }

def viewBalances (db : DB) : List (Nat × ℚ × ℚ) :=
  db.users.map (fun u => (u.id, u.wallet_balance, u.locked_balance))

def viewMatches (db : DB) : List (Nat × MatchStatus × Option Nat) :=
  db.gameMatches.map (fun m => (m.id, m.status, m.winner_id))

theorem lowerStr_AliceL : lowerStr "AliceL" = "alicel" := by decide

theorem lowerStr_BobL : lowerStr "BobL" = "bobl" := by decide

theorem lowerStr_zz9 : lowerStr "zz9" = "zz9" := by decide

theorem lowerStr_yy8 : lowerStr "yy8" = "yy8" := by decide

/-- Result submitted at time 0 (appeal deadline 300000), bob the winner. -/
def c1Submitted : DB := applyOp acceptedDB (.submit 0 1 1 "abc" (some gameBobWins))

/-- Disbursed after the deadline by an unrelated caller (id 9). -/
def c1Disbursed : DB := applyOp c1Submitted (.disburse 400000 9 1)

/-- Draw pipeline from the accepted state. -/
def drawSubmitted : DB := applyOp acceptedDB (.submit 0 1 1 "abc" (some gameDrawn))

def drawDisbursed : DB := applyOp drawSubmitted (.disburse 400000 9 1)

/-- C1: the claim fails on the code.  With stake 1000 the fee calculator
does give pot 2000 / fee 30 / payout 1970, and the loser's locked balance
drops by exactly 1000 with no available credit; but the disbursement
credits the winner `match.winner_payout || match.payout_amount`, and the
match row was inserted with `payout_amount: 0` and no `winner_payout`
property, so the winner's available balance rises by 0, not 1970 (bob's
available stays 4000 while a 30 platform fee is still recorded). -/
theorem c1_winner_credited_zero :
    calculateFee 1000 = { totalPot := 2000, fee := 30, winnerPayout := 1970 } ∧
    viewMatches c1Submitted = [(1, .awaiting_appeal, some 2)] ∧
    viewBalances c1Submitted = [(1, 5000, 1000), (2, 4000, 1000)] ∧
    viewMatches c1Disbursed = [(1, .disbursed, some 2)] ∧
    viewBalances c1Disbursed = [(1, 5000, 0), (2, 4000, 0)] ∧
    c1Disbursed.transactions = [⟨2, .winning, 0, none⟩, ⟨0, .platform_fee, 30, none⟩] := by
  norm_num [c1Submitted, c1Disbursed, drawSubmitted, drawDisbursed, acceptedDB, sampleDB,
    sampleAlice, sampleBob, sampleChallenge, gameBobWins, gameDrawn, gameStranger,
    applyOp, runOp, acceptChallenge, submitResult, resolveWinner, pick2, processDisbursement,
    lockAccepter, lockCreator, matchFromChallenge, refundDraw, creditWinner, debitLoser,
    markDisbursed,
    declineChallenge,
    Except.isOk, Except.toBool,
    updateUser, updateChallenge, updateMatch, updateFirst, calculateFee, viewBalances,
    viewMatches, jsOrQ, jsOrStr, jsDate, generateId, playerName, MIN_STAKE,
    PLATFORM_FEE_PERCENTAGE, APPEAL_PERIOD_MS,
    lowerStr_AliceL, lowerStr_BobL, lowerStr_zz9, lowerStr_yy8]
  try simp [c1Submitted, c1Disbursed, drawSubmitted, drawDisbursed, acceptedDB, sampleDB,
    sampleAlice, sampleBob, sampleChallenge, gameBobWins, gameDrawn, gameStranger,
    applyOp, runOp, acceptChallenge, submitResult, resolveWinner, pick2, processDisbursement,
    lockAccepter, lockCreator, matchFromChallenge, refundDraw, creditWinner, debitLoser,
    markDisbursed,
    declineChallenge,
    Except.isOk, Except.toBool,
    updateUser, updateChallenge, updateMatch, updateFirst, calculateFee, viewBalances,
    viewMatches, jsOrQ, jsOrStr, jsDate, generateId, playerName, MIN_STAKE,
    PLATFORM_FEE_PERCENTAGE, APPEAL_PERIOD_MS,
    lowerStr_AliceL, lowerStr_BobL, lowerStr_zz9, lowerStr_yy8]
  try norm_num [c1Submitted, c1Disbursed, drawSubmitted, drawDisbursed, acceptedDB, sampleDB,
    sampleAlice, sampleBob, sampleChallenge, gameBobWins, gameDrawn, gameStranger,
    applyOp, runOp, acceptChallenge, submitResult, resolveWinner, pick2, processDisbursement,
    lockAccepter, lockCreator, matchFromChallenge, refundDraw, creditWinner, debitLoser,
    markDisbursed,
    declineChallenge,
    Except.isOk, Except.toBool,
    updateUser, updateChallenge, updateMatch, updateFirst, calculateFee, viewBalances,
    viewMatches, jsOrQ, jsOrStr, jsDate, generateId, playerName, MIN_STAKE,
    PLATFORM_FEE_PERCENTAGE, APPEAL_PERIOD_MS,
    lowerStr_AliceL, lowerStr_BobL, lowerStr_zz9, lowerStr_yy8]

/-- C2: the claim fails on the code.  Accepting moves the stake from the
accepter's available into locked (bob: 5000/0 to 4000/1000), but the
proposer is only credited locked balance without a wallet debit (alice:
5000/0 to 5000/1000), despite the route's own `Debit creator` comment, so
available + locked grows by the stake for the proposer. -/
theorem c2_accept_does_not_debit_creator :
    acceptChallenge sampleDB 0 2 "DXTEST" = Except.ok acceptedDB ∧
    viewBalances sampleDB = [(1, 5000, 0), (2, 5000, 0)] ∧
    viewBalances acceptedDB = [(1, 5000, 1000), (2, 4000, 1000)] := by
  norm_num [c1Submitted, c1Disbursed, drawSubmitted, drawDisbursed, acceptedDB, sampleDB,
    sampleAlice, sampleBob, sampleChallenge, gameBobWins, gameDrawn, gameStranger,
    applyOp, runOp, acceptChallenge, submitResult, resolveWinner, pick2, processDisbursement,
    lockAccepter, lockCreator, matchFromChallenge, refundDraw, creditWinner, debitLoser,
    markDisbursed,
    declineChallenge,
    Except.isOk, Except.toBool,
    updateUser, updateChallenge, updateMatch, updateFirst, calculateFee, viewBalances,
    viewMatches, jsOrQ, jsOrStr, jsDate, generateId, playerName, MIN_STAKE,
    PLATFORM_FEE_PERCENTAGE, APPEAL_PERIOD_MS,
    lowerStr_AliceL, lowerStr_BobL, lowerStr_zz9, lowerStr_yy8]
  try simp [c1Submitted, c1Disbursed, drawSubmitted, drawDisbursed, acceptedDB, sampleDB,
    sampleAlice, sampleBob, sampleChallenge, gameBobWins, gameDrawn, gameStranger,
    applyOp, runOp, acceptChallenge, submitResult, resolveWinner, pick2, processDisbursement,
    lockAccepter, lockCreator, matchFromChallenge, refundDraw, creditWinner, debitLoser,
    markDisbursed,
    declineChallenge,
    Except.isOk, Except.toBool,
    updateUser, updateChallenge, updateMatch, updateFirst, calculateFee, viewBalances,
    viewMatches, jsOrQ, jsOrStr, jsDate, generateId, playerName, MIN_STAKE,
    PLATFORM_FEE_PERCENTAGE, APPEAL_PERIOD_MS,
    lowerStr_AliceL, lowerStr_BobL, lowerStr_zz9, lowerStr_yy8]
  try norm_num [c1Submitted, c1Disbursed, drawSubmitted, drawDisbursed, acceptedDB, sampleDB,
    sampleAlice, sampleBob, sampleChallenge, gameBobWins, gameDrawn, gameStranger,
    applyOp, runOp, acceptChallenge, submitResult, resolveWinner, pick2, processDisbursement,
    lockAccepter, lockCreator, matchFromChallenge, refundDraw, creditWinner, debitLoser,
    markDisbursed,
    declineChallenge,
    Except.isOk, Except.toBool,
    updateUser, updateChallenge, updateMatch, updateFirst, calculateFee, viewBalances,
    viewMatches, jsOrQ, jsOrStr, jsDate, generateId, playerName, MIN_STAKE,
    PLATFORM_FEE_PERCENTAGE, APPEAL_PERIOD_MS,
    lowerStr_AliceL, lowerStr_BobL, lowerStr_zz9, lowerStr_yy8]

/-- C3: the claim fails on the code.  After a draw is disbursed the
accepter is restored exactly (bob back to 5000 available), and no platform
fee transaction is recorded; but because acceptance never debited the
proposer's available balance, the draw refund leaves the proposer at 6000,
1000 above the pre-acceptance 5000. -/
theorem c3_draw_overcredits_creator :
    viewBalances sampleDB = [(1, 5000, 0), (2, 5000, 0)] ∧
    viewMatches drawSubmitted = [(1, .draw, none)] ∧
    viewMatches drawDisbursed = [(1, .disbursed, none)] ∧
    viewBalances drawDisbursed = [(1, 6000, 0), (2, 5000, 0)] ∧
    drawDisbursed.transactions.filter (fun t => decide (t.txType = .platform_fee)) = [] ∧
    drawDisbursed.transactions = [⟨1, .refund, 1000, none⟩, ⟨2, .refund, 1000, none⟩] := by
  norm_num [c1Submitted, c1Disbursed, drawSubmitted, drawDisbursed, acceptedDB, sampleDB,
    sampleAlice, sampleBob, sampleChallenge, gameBobWins, gameDrawn, gameStranger,
    applyOp, runOp, acceptChallenge, submitResult, resolveWinner, pick2, processDisbursement,
    lockAccepter, lockCreator, matchFromChallenge, refundDraw, creditWinner, debitLoser,
    markDisbursed,
    declineChallenge,
    Except.isOk, Except.toBool,
    updateUser, updateChallenge, updateMatch, updateFirst, calculateFee, viewBalances,
    viewMatches, jsOrQ, jsOrStr, jsDate, generateId, playerName, MIN_STAKE,
    PLATFORM_FEE_PERCENTAGE, APPEAL_PERIOD_MS,
    lowerStr_AliceL, lowerStr_BobL, lowerStr_zz9, lowerStr_yy8]
  try simp [c1Submitted, c1Disbursed, drawSubmitted, drawDisbursed, acceptedDB, sampleDB,
    sampleAlice, sampleBob, sampleChallenge, gameBobWins, gameDrawn, gameStranger,
    applyOp, runOp, acceptChallenge, submitResult, resolveWinner, pick2, processDisbursement,
    lockAccepter, lockCreator, matchFromChallenge, refundDraw, creditWinner, debitLoser,
    markDisbursed,
    declineChallenge,
    Except.isOk, Except.toBool,
    updateUser, updateChallenge, updateMatch, updateFirst, calculateFee, viewBalances,
    viewMatches, jsOrQ, jsOrStr, jsDate, generateId, playerName, MIN_STAKE,
    PLATFORM_FEE_PERCENTAGE, APPEAL_PERIOD_MS,
    lowerStr_AliceL, lowerStr_BobL, lowerStr_zz9, lowerStr_yy8]
  try norm_num [c1Submitted, c1Disbursed, drawSubmitted, drawDisbursed, acceptedDB, sampleDB,
    sampleAlice, sampleBob, sampleChallenge, gameBobWins, gameDrawn, gameStranger,
    applyOp, runOp, acceptChallenge, submitResult, resolveWinner, pick2, processDisbursement,
    lockAccepter, lockCreator, matchFromChallenge, refundDraw, creditWinner, debitLoser,
    markDisbursed,
    declineChallenge,
    Except.isOk, Except.toBool,
    updateUser, updateChallenge, updateMatch, updateFirst, calculateFee, viewBalances,
    viewMatches, jsOrQ, jsOrStr, jsDate, generateId, playerName, MIN_STAKE,
    PLATFORM_FEE_PERCENTAGE, APPEAL_PERIOD_MS,
    lowerStr_AliceL, lowerStr_BobL, lowerStr_zz9, lowerStr_yy8]

/-- C6: the claim fails on the code.  When the reported winner's handle
matches neither participant, the submission succeeds (HTTP 200), and the
match is moved to awaiting_appeal with a null winner instead of staying
in_progress with an external-verification error. -/
theorem c6_unmappable_winner_still_transitions :
    (submitResult acceptedDB 0 1 1 "abc" (some gameStranger)).isOk = true ∧
    viewMatches (applyOp acceptedDB (.submit 0 1 1 "abc" (some gameStranger))) =
      [(1, .awaiting_appeal, none)] ∧
    viewBalances (applyOp acceptedDB (.submit 0 1 1 "abc" (some gameStranger))) =
      viewBalances acceptedDB := by
  norm_num [c1Submitted, c1Disbursed, drawSubmitted, drawDisbursed, acceptedDB, sampleDB,
    sampleAlice, sampleBob, sampleChallenge, gameBobWins, gameDrawn, gameStranger,
    applyOp, runOp, acceptChallenge, submitResult, resolveWinner, pick2, processDisbursement,
    lockAccepter, lockCreator, matchFromChallenge, refundDraw, creditWinner, debitLoser,
    markDisbursed,
    declineChallenge,
    Except.isOk, Except.toBool,
    updateUser, updateChallenge, updateMatch, updateFirst, calculateFee, viewBalances,
    viewMatches, jsOrQ, jsOrStr, jsDate, generateId, playerName, MIN_STAKE,
    PLATFORM_FEE_PERCENTAGE, APPEAL_PERIOD_MS,
    lowerStr_AliceL, lowerStr_BobL, lowerStr_zz9, lowerStr_yy8]
  try simp [c1Submitted, c1Disbursed, drawSubmitted, drawDisbursed, acceptedDB, sampleDB,
    sampleAlice, sampleBob, sampleChallenge, gameBobWins, gameDrawn, gameStranger,
    applyOp, runOp, acceptChallenge, submitResult, resolveWinner, pick2, processDisbursement,
    lockAccepter, lockCreator, matchFromChallenge, refundDraw, creditWinner, debitLoser,
    markDisbursed,
    declineChallenge,
    Except.isOk, Except.toBool,
    updateUser, updateChallenge, updateMatch, updateFirst, calculateFee, viewBalances,
    viewMatches, jsOrQ, jsOrStr, jsDate, generateId, playerName, MIN_STAKE,
    PLATFORM_FEE_PERCENTAGE, APPEAL_PERIOD_MS,
    lowerStr_AliceL, lowerStr_BobL, lowerStr_zz9, lowerStr_yy8]
  try norm_num [c1Submitted, c1Disbursed, drawSubmitted, drawDisbursed, acceptedDB, sampleDB,
    sampleAlice, sampleBob, sampleChallenge, gameBobWins, gameDrawn, gameStranger,
    applyOp, runOp, acceptChallenge, submitResult, resolveWinner, pick2, processDisbursement,
    lockAccepter, lockCreator, matchFromChallenge, refundDraw, creditWinner, debitLoser,
    markDisbursed,
    declineChallenge,
    Except.isOk, Except.toBool,
    updateUser, updateChallenge, updateMatch, updateFirst, calculateFee, viewBalances,
    viewMatches, jsOrQ, jsOrStr, jsDate, generateId, playerName, MIN_STAKE,
    PLATFORM_FEE_PERCENTAGE, APPEAL_PERIOD_MS,
    lowerStr_AliceL, lowerStr_BobL, lowerStr_zz9, lowerStr_yy8]

/-- C8 counterexample: the proposer (alice, id 1) declines her own pending
challenge and the call succeeds, moving the challenge to declined — the
claim that any caller other than the target fails with an authorization
error is false at this input. -/
theorem c8_proposer_can_decline :
    (declineChallenge sampleDB 1 "DXTEST").isOk = true ∧
    (applyOp sampleDB (.decline 1 "DXTEST")).challenges.map (fun c => (c.id, c.status)) =
      [(1, ChallengeStatus.declined)] := by
  norm_num [c1Submitted, c1Disbursed, drawSubmitted, drawDisbursed, acceptedDB, sampleDB,
    sampleAlice, sampleBob, sampleChallenge, gameBobWins, gameDrawn, gameStranger,
    applyOp, runOp, acceptChallenge, submitResult, resolveWinner, pick2, processDisbursement,
    lockAccepter, lockCreator, matchFromChallenge, refundDraw, creditWinner, debitLoser,
    markDisbursed,
    declineChallenge,
    Except.isOk, Except.toBool,
    updateUser, updateChallenge, updateMatch, updateFirst, calculateFee, viewBalances,
    viewMatches, jsOrQ, jsOrStr, jsDate, generateId, playerName, MIN_STAKE,
    PLATFORM_FEE_PERCENTAGE, APPEAL_PERIOD_MS,
    lowerStr_AliceL, lowerStr_BobL, lowerStr_zz9, lowerStr_yy8]
  try simp [c1Submitted, c1Disbursed, drawSubmitted, drawDisbursed, acceptedDB, sampleDB,
    sampleAlice, sampleBob, sampleChallenge, gameBobWins, gameDrawn, gameStranger,
    applyOp, runOp, acceptChallenge, submitResult, resolveWinner, pick2, processDisbursement,
    lockAccepter, lockCreator, matchFromChallenge, refundDraw, creditWinner, debitLoser,
    markDisbursed,
    declineChallenge,
    Except.isOk, Except.toBool,
    updateUser, updateChallenge, updateMatch, updateFirst, calculateFee, viewBalances,
    viewMatches, jsOrQ, jsOrStr, jsDate, generateId, playerName, MIN_STAKE,
    PLATFORM_FEE_PERCENTAGE, APPEAL_PERIOD_MS,
    lowerStr_AliceL, lowerStr_BobL, lowerStr_zz9, lowerStr_yy8]
  try norm_num [c1Submitted, c1Disbursed, drawSubmitted, drawDisbursed, acceptedDB, sampleDB,
    sampleAlice, sampleBob, sampleChallenge, gameBobWins, gameDrawn, gameStranger,
    applyOp, runOp, acceptChallenge, submitResult, resolveWinner, pick2, processDisbursement,
    lockAccepter, lockCreator, matchFromChallenge, refundDraw, creditWinner, debitLoser,
    markDisbursed,
    declineChallenge,
    Except.isOk, Except.toBool,
    updateUser, updateChallenge, updateMatch, updateFirst, calculateFee, viewBalances,
    viewMatches, jsOrQ, jsOrStr, jsDate, generateId, playerName, MIN_STAKE,
    PLATFORM_FEE_PERCENTAGE, APPEAL_PERIOD_MS,
    lowerStr_AliceL, lowerStr_BobL, lowerStr_zz9, lowerStr_yy8]

/-- C10: the disbursement handler never reads the authenticated caller, so
any two authenticated callers get identical results (same response, same
resulting store) on every match and store. -/
theorem c10_disbursement_caller_independent (db : DB) (now : Int)
    (caller1 caller2 matchId : Nat) :
    processDisbursement db now caller1 matchId =
      processDisbursement db now caller2 matchId := rfl

/-- C8 (amended): a pending challenge may be declined by its target or by
its proposer; a decline request from any other account fails with 403 Not
authorized and leaves the store (hence the pending challenge) unchanged. -/
theorem c8_decline_target_or_proposer (db : DB) (callerId : Nat) (code : String)
    (ch : Challenge)
    (hch : db.challenges.find? (fun c =>
      decide (c.challenge_code = code) &&
      decide (c.status = ChallengeStatus.pending)) = some ch) :
    (ch.opponent_id ≠ callerId → ch.creator_id ≠ callerId →
      declineChallenge db callerId code = .error (403, "Not authorized") ∧
      applyOp db (Op.decline callerId code) = db) ∧
    ((ch.opponent_id = callerId ∨ ch.creator_id = callerId) →
      declineChallenge db callerId code =
        .ok (updateChallenge db ch.id (fun c => { c with status := .declined }))) := by
  constructor
  · intro h1 h2
    have hd : declineChallenge db callerId code = .error (403, "Not authorized") := by
      unfold declineChallenge
      rw [hch]
      simp [h1, h2]
    exact ⟨hd, by simp [applyOp, runOp, hd]⟩
  · intro h
    have hcond : ¬ (ch.opponent_id ≠ callerId ∧ ch.creator_id ≠ callerId) := by
      rcases h with h | h <;> simp [h]
    unfold declineChallenge
    rw [hch]
    simp [hcond]

/-- C8 witness: user 3 (neither party) cannot decline the sample pending
challenge and the store is untouched. -/
theorem c8_decline_target_or_proposer_witness :
    declineChallenge sampleDB 3 "DXTEST" = .error (403, "Not authorized") ∧
    applyOp sampleDB (Op.decline 3 "DXTEST") = sampleDB :=
  (c8_decline_target_or_proposer sampleDB 3 "DXTEST" sampleChallenge rfl).1
    (by decide) (by decide)

/-- An awaiting_appeal match between the sample users: result submitted,
winner bob, appeal deadline 300000. -/
def appealMatch : GameMatch :=
  { id := 1, challenge_id := 1, creator_id := 1, opponent_id := 2, stake_amount := 1000,
    time_control := "blitz", is_rated := false, status := .awaiting_appeal,
    lichess_game_id := some "abc", dx_fee := 30, payout_amount := 0,
    winner_payout := none, winner_id := some 2, appeal_deadline := some 300000 }

def appealDB : DB :=
  { users := [sampleAlice, sampleBob], challenges := [], gameMatches := [appealMatch],
    transactions := [], appeals := [] }

/-- C7: for a participant of an existing match, the appeal route fails with
a 400 state error and leaves the store unchanged when the match is not
awaiting_appeal, or the deadline has passed, or the filer already appealed;
when none of these hold it records the appeal and moves the match to
appealed. -/
theorem c7_appeal_guards (db : DB) (now : Int) (callerId matchId : Nat)
    (reason : String) (m : GameMatch)
    (hm : db.gameMatches.find? (fun mm => decide (mm.id = matchId)) = some m)
    (hpart : m.creator_id = callerId ∨ m.opponent_id = callerId) :
    ((m.status ≠ MatchStatus.awaiting_appeal ∨ jsDate m.appeal_deadline < now ∨
        (db.appeals.find? (fun a =>
          decide (a.match_id = m.id) && decide (a.user_id = callerId))).isSome) →
      (∃ msg, submitAppeal db now callerId matchId reason = .error (400, msg)) ∧
      applyOp db (Op.appealFile now callerId matchId reason) = db) ∧
    (m.status = MatchStatus.awaiting_appeal → ¬ jsDate m.appeal_deadline < now →
      db.appeals.find? (fun a =>
        decide (a.match_id = m.id) && decide (a.user_id = callerId)) = none →
      submitAppeal db now callerId matchId reason =
        .ok (updateMatch { db with appeals := db.appeals ++ [{
            id := generateId (fun a => a.id) db.appeals
            match_id := m.id
            user_id := callerId
            reason := if reason = "" then "Disputed result" else reason
            status := .pending }] } m.id
          (fun mm => { mm with status := .appealed }))) := by
  have hauth : ¬ (m.creator_id ≠ callerId ∧ m.opponent_id ≠ callerId) := by
    rcases hpart with h | h <;> simp [h]
  constructor
  · intro hbad
    have hres : ∃ msg, submitAppeal db now callerId matchId reason = .error (400, msg) := by
      unfold submitAppeal
      rw [hm]
      by_cases hst : m.status = MatchStatus.awaiting_appeal
      · by_cases hdl : jsDate m.appeal_deadline < now
        · exact ⟨"Appeal deadline has passed", by simp [hauth, hst, hdl]⟩
        · have hap : (db.appeals.find? (fun a =>
              decide (a.match_id = m.id) && decide (a.user_id = callerId))).isSome = true := by
            rcases hbad with h | h | h
            · exact absurd hst h
            · exact absurd h hdl
            · exact h
          exact ⟨"You have already submitted an appeal", by simp [hauth, hst, hdl, hap]⟩
      · exact ⟨"Match is not awaiting appeal", by simp [hauth, hst]⟩
    obtain ⟨msg, hmsg⟩ := hres
    exact ⟨⟨msg, hmsg⟩, by simp [applyOp, runOp, hmsg]⟩
  · intro hst hdl hnone
    unfold submitAppeal
    rw [hm]
    simp [hauth, hst, hdl, hnone]

/-- C7 witness: filing after the deadline (now 400000 > 300000) fails and
changes nothing. -/
theorem c7_appeal_guards_witness :
    (∃ msg, submitAppeal appealDB 400000 1 1 "bad call" = .error (400, msg)) ∧
    applyOp appealDB (Op.appealFile 400000 1 1 "bad call") = appealDB :=
  (c7_appeal_guards appealDB 400000 1 1 "bad call" appealMatch rfl (Or.inl rfl)).1
    (Or.inr (Or.inl (by decide)))

theorem find?_updateFirst_of_pres {α : Type} (p : α → Bool) (f : α → α) (l : List α)
    (hf : ∀ x, p (f x) = p x) :
    (updateFirst p f l).find? p = (l.find? p).map f := by
  induction l with
  | nil => rfl
  | cons x xs ih =>
    simp only [updateFirst]
    by_cases hx : p x = true
    · rw [if_pos hx, List.find?_cons_of_pos _ ((hf x).trans hx),
        List.find?_cons_of_pos _ hx]
      rfl
    · rw [if_neg hx, List.find?_cons_of_neg _ hx, List.find?_cons_of_neg _ hx, ih]

/-- A successful disbursement touches the match table only by setting the
found match's status to disbursed. -/
theorem processDisbursement_ok_matches (db db2 : DB) (now : Int)
    (caller matchId : Nat)
    (h : processDisbursement db now caller matchId = .ok db2) :
    db2.gameMatches = updateFirst (fun mm => decide (mm.id = matchId))
      markDisbursed db.gameMatches := by
  unfold processDisbursement at h
  cases hfind : db.gameMatches.find? (fun m => decide (m.id = matchId)) with
  | none => rw [hfind] at h; exact absurd h (by simp)
  | some m =>
    have hid : m.id = matchId := by
      have hp := List.find?_some hfind
      simpa using hp
    subst hid
    simp only [hfind] at h
    repeat' split at h
    all_goals
      first
        | exact Except.noConfusion h
        | (rw [Except.ok.injEq] at h
           subst h
           rfl)

/-- C5: disbursing a match a second time fails with the 400 state error and
leaves the store unchanged — a successful disbursement marks the match
disbursed, and the status guard rejects any further call before any
mutation. -/
theorem c5_second_disbursement_fails (db db2 : DB) (now now2 : Int)
    (caller caller2 matchId : Nat)
    (h : processDisbursement db now caller matchId = .ok db2) :
    processDisbursement db2 now2 caller2 matchId =
      .error (400, "Match is not ready for disbursement") ∧
    applyOp db2 (Op.disburse now2 caller2 matchId) = db2 := by
  have hsh := processDisbursement_ok_matches db db2 now caller matchId h
  have hex : ∃ m, db.gameMatches.find? (fun mm => decide (mm.id = matchId)) = some m := by
    cases hf : db.gameMatches.find? (fun mm => decide (mm.id = matchId)) with
    | none =>
      unfold processDisbursement at h
      rw [hf] at h
      exact absurd h (by simp)
    | some m => exact ⟨m, rfl⟩
  obtain ⟨m, hm⟩ := hex
  have hfind2 : db2.gameMatches.find? (fun mm => decide (mm.id = matchId)) =
      some (markDisbursed m) := by
    rw [hsh, find?_updateFirst_of_pres (fun mm => decide (mm.id = matchId))
      markDisbursed db.gameMatches (by intro x; simp [markDisbursed]), hm]
    rfl
  have hres : processDisbursement db2 now2 caller2 matchId =
      .error (400, "Match is not ready for disbursement") := by
    unfold processDisbursement
    rw [hfind2]
    simp [markDisbursed]
  exact ⟨hres, by simp [applyOp, runOp, hres]⟩

/-- C5 witness: the drawn sample match is disbursed once successfully, and
the second call fails without touching the store. -/
theorem c5_second_disbursement_fails_witness :
    processDisbursement drawDisbursed 500000 3 1 =
      .error (400, "Match is not ready for disbursement") ∧
    applyOp drawDisbursed (Op.disburse 500000 3 1) = drawDisbursed :=
  c5_second_disbursement_fails drawSubmitted drawDisbursed 400000 500000 9 3 1
    (by
      norm_num [drawSubmitted, drawDisbursed, acceptedDB, sampleDB, sampleAlice,
      sampleBob, sampleChallenge, gameDrawn, applyOp, runOp, acceptChallenge,
      submitResult, resolveWinner, pick2, processDisbursement, lockAccepter, lockCreator,
      matchFromChallenge, refundDraw, creditWinner, debitLoser, markDisbursed,
      updateUser, updateChallenge,
      updateMatch,
      updateFirst, calculateFee, jsOrQ, jsOrStr, jsDate, generateId, playerName,
      MIN_STAKE, PLATFORM_FEE_PERCENTAGE, APPEAL_PERIOD_MS]
      try simp [drawSubmitted, drawDisbursed, acceptedDB, sampleDB, sampleAlice,
      sampleBob, sampleChallenge, gameDrawn, applyOp, runOp, acceptChallenge,
      submitResult, resolveWinner, pick2, processDisbursement, lockAccepter, lockCreator,
      matchFromChallenge, refundDraw, creditWinner, debitLoser, markDisbursed,
      updateUser, updateChallenge,
      updateMatch,
      updateFirst, calculateFee, jsOrQ, jsOrStr, jsDate, generateId, playerName,
      MIN_STAKE, PLATFORM_FEE_PERCENTAGE, APPEAL_PERIOD_MS]
      try norm_num [drawSubmitted, drawDisbursed, acceptedDB, sampleDB, sampleAlice,
      sampleBob, sampleChallenge, gameDrawn, applyOp, runOp, acceptChallenge,
      submitResult, resolveWinner, pick2, processDisbursement, lockAccepter, lockCreator,
      matchFromChallenge, refundDraw, creditWinner, debitLoser, markDisbursed,
      updateUser, updateChallenge,
      updateMatch,
      updateFirst, calculateFee, jsOrQ, jsOrStr, jsDate, generateId, playerName,
      MIN_STAKE, PLATFORM_FEE_PERCENTAGE, APPEAL_PERIOD_MS])


/-! ### Invariant infrastructure for the balance non-negativity claim -/

theorem le_foldr_max {α : Type} (getId : α → Nat) (l : List α) (x : α) (hx : x ∈ l) :
    getId x ≤ l.foldr (fun y acc => max (getId y) acc) 0 := by
  induction l with
  | nil => cases hx
  | cons a as ih =>
    rcases List.mem_cons.mp hx with rfl | hx2
    · exact le_max_left _ _
    · exact le_trans (ih hx2) (le_max_right _ _)

theorem lt_generateId {α : Type} (getId : α → Nat) (l : List α) (x : α) (hx : x ∈ l) :
    getId x < generateId getId l :=
  Nat.lt_succ_of_le (le_foldr_max getId l x hx)

theorem map_updateFirst {α β : Type} (p : α → Bool) (f : α → α) (g : α → β)
    (hf : ∀ x, g (f x) = g x) (l : List α) :
    (updateFirst p f l).map g = l.map g := by
  induction l with
  | nil => rfl
  | cons x xs ih =>
    by_cases hx : p x = true
    · simp [updateFirst, hx, hf]
    · simp [updateFirst, hx, ih]

theorem mem_updateFirst_by_id {α : Type} (getId : α → Nat) (a : Nat) (f : α → α)
    (l : List α) (hnd : (l.map getId).Nodup) (y : α)
    (hy : y ∈ updateFirst (fun z => decide (getId z = a)) f l) :
    (∃ x, l.find? (fun z => decide (getId z = a)) = some x ∧ y = f x) ∨
      (y ∈ l ∧ getId y ≠ a) := by
  induction l with
  | nil => cases hy
  | cons x xs ih =>
    rw [List.map_cons, List.nodup_cons] at hnd
    by_cases hx : getId x = a
    · rw [updateFirst, if_pos (by simpa using hx)] at hy
      rcases List.mem_cons.mp hy with rfl | hy2
      · exact Or.inl ⟨x, by rw [List.find?_cons_of_pos _ (by simpa using hx)], rfl⟩
      · refine Or.inr ⟨List.mem_cons_of_mem _ hy2, fun hya => ?_⟩
        exact hnd.1 (hx ▸ hya ▸ List.mem_map_of_mem getId hy2)
    · rw [updateFirst, if_neg (by simpa using hx)] at hy
      rcases List.mem_cons.mp hy with rfl | hy2
      · exact Or.inr ⟨List.mem_cons_self _ _, by simpa using hx⟩
      · rcases ih hnd.2 hy2 with ⟨x2, hx2, hyx⟩ | ⟨hmem, hne⟩
        · exact Or.inl ⟨x2, by rw [List.find?_cons_of_neg _ (by simpa using hx), hx2], hyx⟩
        · exact Or.inr ⟨List.mem_cons_of_mem _ hmem, hne⟩

theorem exists_id_updateFirst {α : Type} (getId : α → Nat) (p : α → Bool) (f : α → α)
    (hf : ∀ x, getId (f x) = getId x) (l : List α) (i : Nat)
    (hex : ∃ u ∈ l, getId u = i) : ∃ u ∈ updateFirst p f l, getId u = i := by
  induction l with
  | nil =>
    obtain ⟨u, hu, -⟩ := hex
    cases hu
  | cons x xs ih =>
    obtain ⟨u, hu, hui⟩ := hex
    rcases List.mem_cons.mp hu with rfl | hu2
    · by_cases hx : p u = true
      · exact ⟨f u, by rw [updateFirst, if_pos hx]; exact List.mem_cons_self _ _,
          (hf u).trans hui⟩
      · exact ⟨u, by rw [updateFirst, if_neg hx]; exact List.mem_cons_self _ _, hui⟩
    · by_cases hx : p x = true
      · exact ⟨u, by rw [updateFirst, if_pos hx]; exact List.mem_cons_of_mem _ hu2, hui⟩
      · obtain ⟨v, hv, hvi⟩ := ih ⟨u, hu2, hui⟩
        exact ⟨v, by rw [updateFirst, if_neg hx]; exact List.mem_cons_of_mem _ hv, hvi⟩

theorem sum_map_updateFirst {α : Type} (p : α → Bool) (f : α → α) (g : α → ℚ)
    (l : List α) (x : α) (hx : l.find? p = some x) :
    ((updateFirst p f l).map g).sum = (l.map g).sum - g x + g (f x) := by
  induction l with
  | nil => simp at hx
  | cons a as ih =>
    by_cases ha : p a = true
    · rw [List.find?_cons_of_pos _ ha] at hx
      injection hx with hx
      subst hx
      simp only [updateFirst, if_pos ha, List.map_cons, List.sum_cons]
      ring
    · rw [List.find?_cons_of_neg _ ha] at hx
      simp only [updateFirst, if_neg ha, List.map_cons, List.sum_cons, ih hx]
      ring

/-- Stake still owed to the locked balance of user `uid` by one match: its
stake if the match is active (not disbursed) and involves `uid`. -/
def contrib (uid : Nat) (m : GameMatch) : ℚ :=
  if m.status ≠ MatchStatus.disbursed ∧ (m.creator_id = uid ∨ m.opponent_id = uid) then
    m.stake_amount
  else 0

def lockedNeed (uid : Nat) (ms : List GameMatch) : ℚ := (ms.map (contrib uid)).sum

theorem contrib_nonneg (uid : Nat) (m : GameMatch) (h : 0 ≤ m.stake_amount) :
    0 ≤ contrib uid m := by
  unfold contrib
  split
  · exact h
  · exact le_refl 0

theorem lockedNeed_nonneg (uid : Nat) (ms : List GameMatch)
    (h : ∀ m ∈ ms, 0 ≤ m.stake_amount) : 0 ≤ lockedNeed uid ms := by
  refine List.sum_nonneg ?_
  intro q hq
  obtain ⟨m, hm, rfl⟩ := List.mem_map.mp hq
  exact contrib_nonneg _ _ (h m hm)

theorem lockedNeed_append (uid : Nat) (ms : List GameMatch) (m : GameMatch) :
    lockedNeed uid (ms ++ [m]) = lockedNeed uid ms + contrib uid m := by
  simp [lockedNeed]

theorem lockedNeed_zero_of_fresh (uid : Nat) (ms : List GameMatch)
    (h : ∀ m ∈ ms, m.creator_id ≠ uid ∧ m.opponent_id ≠ uid) :
    lockedNeed uid ms = 0 := by
  refine List.sum_eq_zero ?_
  intro q hq
  obtain ⟨m, hm, rfl⟩ := List.mem_map.mp hq
  unfold contrib
  rw [if_neg]
  rintro ⟨-, hc | hc⟩
  · exact (h m hm).1 hc
  · exact (h m hm).2 hc

theorem lockedNeed_updateFirst (uid : Nat) (p : GameMatch → Bool)
    (f : GameMatch → GameMatch) (ms : List GameMatch) (x : GameMatch)
    (hx : ms.find? p = some x) :
    lockedNeed uid (updateFirst p f ms) =
      lockedNeed uid ms - contrib uid x + contrib uid (f x) :=
  sum_map_updateFirst p f (contrib uid) ms x hx

/-- The state invariant behind the non-negativity claim: user ids are
unique, every wallet is non-negative and every locked balance covers the
stakes of that user's active matches, challenges are well-formed
(non-negative stake, distinct existing participants) and matches are
well-formed (non-negative stake and stored payout, distinct existing
participants, `winner_payout` never written, winner among the
participants). -/
structure Inv (db : DB) : Prop where
  idsNodup : (db.users.map (fun u => u.id)).Nodup
  balOk : ∀ u ∈ db.users, 0 ≤ u.wallet_balance ∧
    lockedNeed u.id db.gameMatches ≤ u.locked_balance
  chOk : ∀ c ∈ db.challenges, 0 ≤ c.stake_amount ∧ c.creator_id ≠ c.opponent_id ∧
    (∃ u ∈ db.users, u.id = c.creator_id) ∧ (∃ u ∈ db.users, u.id = c.opponent_id)
  mOk : ∀ m ∈ db.gameMatches, 0 ≤ m.stake_amount ∧ m.creator_id ≠ m.opponent_id ∧
    (∃ u ∈ db.users, u.id = m.creator_id) ∧ (∃ u ∈ db.users, u.id = m.opponent_id) ∧
    0 ≤ m.payout_amount ∧ m.winner_payout = none ∧
    (m.winner_id = none ∨ m.winner_id = some m.creator_id ∨
      m.winner_id = some m.opponent_id)

theorem inv_empty : Inv emptyDB := by
  refine ⟨?_, ?_, ?_, ?_⟩ <;> simp [emptyDB]




theorem mem_updateFirst {α : Type} (p : α → Bool) (f : α → α) (l : List α) (y : α)
    (hy : y ∈ updateFirst p f l) :
    y ∈ l ∨ ∃ x, l.find? p = some x ∧ y = f x := by
  induction l with
  | nil => cases hy
  | cons x xs ih =>
    by_cases hx : p x = true
    · rw [updateFirst, if_pos hx] at hy
      rcases List.mem_cons.mp hy with rfl | hy2
      · exact Or.inr ⟨x, by rw [List.find?_cons_of_pos _ hx], rfl⟩
      · exact Or.inl (List.mem_cons_of_mem _ hy2)
    · rw [updateFirst, if_neg hx] at hy
      rcases List.mem_cons.mp hy with rfl | hy2
      · exact Or.inl (List.mem_cons_self _ _)
      · rcases ih hy2 with hmem | ⟨x2, hx2, hyx⟩
        · exact Or.inl (List.mem_cons_of_mem _ hmem)
        · exact Or.inr ⟨x2, by rw [List.find?_cons_of_neg _ hx, hx2], hyx⟩

theorem idsNodup_updateUser (db : DB) (uid : Nat) (f : User → User)
    (hf : ∀ x, (f x).id = x.id)
    (h : (db.users.map (fun u => u.id)).Nodup) :
    (((updateUser db uid f).users).map (fun u => u.id)).Nodup := by
  unfold updateUser
  rw [map_updateFirst _ f (fun u => u.id) hf]
  exact h

theorem exists_id_updateUser (db : DB) (uid : Nat) (f : User → User)
    (hf : ∀ x, (f x).id = x.id) (i : Nat)
    (hex : ∃ u ∈ db.users, u.id = i) :
    ∃ u ∈ (updateUser db uid f).users, u.id = i := by
  obtain ⟨u, hu, hui⟩ := exists_id_updateFirst (fun v => v.id)
    (fun u => decide (u.id = uid)) f hf db.users i hex
  exact ⟨u, hu, hui⟩

theorem registerUser_ok_inv (db db2 : DB)
    (username email password phone full_name : String)
    (h : registerUser db username email password phone full_name = .ok db2)
    (hinv : Inv db) : Inv db2 := by
  unfold registerUser at h
  have h1 : ¬ (username = "" ∨ email = "" ∨ password = "" ∨ phone = "" ∨
      full_name = "") := fun hc => by
    rw [if_pos hc] at h; exact Except.noConfusion h
  rw [if_neg h1] at h
  have h2 : ¬ (password.length < 6) := fun hc => by
    rw [if_pos hc] at h; exact Except.noConfusion h
  rw [if_neg h2] at h
  have h3 : ¬ ¬ (validUsername username = true) := fun hc => by
    rw [if_pos hc] at h; exact Except.noConfusion h
  rw [if_neg h3] at h
  have h4 : ¬ ¬ (validPhone phone = true) := fun hc => by
    rw [if_pos hc] at h; exact Except.noConfusion h
  rw [if_neg h4] at h
  have h5 : ¬ ¬ (validFullName full_name = true) := fun hc => by
    rw [if_pos hc] at h; exact Except.noConfusion h
  rw [if_neg h5] at h
  cases hf : db.users.find? (fun u =>
      decide (u.username = username) || decide (u.email = email) ||
      decide (u.phone = phone)) with
  | some existing =>
    simp only [hf] at h
    split at h <;>
      first
        | exact Except.noConfusion h
        | split at h <;> exact Except.noConfusion h
  | none =>
    simp only [hf] at h
    rw [Except.ok.injEq] at h
    subst h
    have hfreshid : (freshUser db username email phone full_name).id =
        generateId (fun u => u.id) db.users := rfl
    have hnodup : ((db.users ++ [freshUser db username email phone full_name]).map
        (fun u => u.id)).Nodup := by
      rw [List.map_append]
      refine List.Nodup.append hinv.idsNodup (List.nodup_singleton _) ?_
      intro a ha hb
      simp only [List.map_cons, List.map_nil, List.mem_singleton] at hb
      obtain ⟨x, hx, hxa⟩ := List.mem_map.mp ha
      have hlt : x.id < generateId (fun u => u.id) db.users :=
        lt_generateId (fun u => u.id) db.users x hx
      rw [hb, hfreshid] at hxa
      omega
    refine ⟨hnodup, ?_, ?_, ?_⟩
    · intro u hu
      rcases List.mem_append.mp hu with hu2 | hu2
      · exact hinv.balOk u hu2
      · rw [List.mem_singleton] at hu2
        subst hu2
        refine ⟨le_refl 0, ?_⟩
        have hz : lockedNeed (generateId (fun u => u.id) db.users)
            db.gameMatches = 0 := by
          refine lockedNeed_zero_of_fresh _ _ ?_
          intro m hm
          obtain ⟨-, -, ⟨uc, hucm, hucid⟩, ⟨uo, huom, huoid⟩, -⟩ := hinv.mOk m hm
          have hc : uc.id < generateId (fun u => u.id) db.users :=
            lt_generateId (fun u => u.id) db.users uc hucm
          have ho : uo.id < generateId (fun u => u.id) db.users :=
            lt_generateId (fun u => u.id) db.users uo huom
          constructor
          · intro he
            rw [← hucid] at he
            omega
          · intro he
            rw [← huoid] at he
            omega
        have hle : lockedNeed (freshUser db username email phone full_name).id
            db.gameMatches ≤ 0 := by
          rw [hfreshid, hz]
        exact hle
    · intro c hc
      obtain ⟨hs, hne, ⟨uc, hucm, hucid⟩, ⟨uo, huom, huoid⟩⟩ := hinv.chOk c hc
      exact ⟨hs, hne, ⟨uc, List.mem_append_left _ hucm, hucid⟩,
        ⟨uo, List.mem_append_left _ huom, huoid⟩⟩
    · intro m hm
      obtain ⟨hs, hne, ⟨uc, hucm, hucid⟩, ⟨uo, huom, huoid⟩, hp, hwp, hw⟩ := hinv.mOk m hm
      exact ⟨hs, hne, ⟨uc, List.mem_append_left _ hucm, hucid⟩,
        ⟨uo, List.mem_append_left _ huom, huoid⟩, hp, hwp, hw⟩

theorem deposit_ok_inv (db db2 : DB) (uid : Nat) (amount : ℚ)
    (h : deposit db uid amount = .ok db2) (hinv : Inv db) : Inv db2 := by
  unfold deposit at h
  have h1 : ¬ (amount < 100) := fun hc => by
    rw [if_pos hc] at h; exact Except.noConfusion h
  rw [if_neg h1] at h
  cases hf : db.users.find? (fun u => decide (u.id = uid)) with
  | none =>
    simp only [hf] at h
    exact Except.noConfusion h
  | some user =>
    simp only [hf] at h
    rw [Except.ok.injEq] at h
    subst h
    have hamt : 0 ≤ amount := by
      have := not_lt.mp h1
      linarith
    refine ⟨?_, ?_, ?_, ?_⟩
    · refine idsNodup_updateUser db uid _ ?_ hinv.idsNodup
      intro x
      rfl
    · intro u hu
      rcases mem_updateFirst _ _ _ u hu with hmem | ⟨x, hx, rfl⟩
      · exact hinv.balOk u hmem
      · have hxm := List.mem_of_find?_eq_some hx
        obtain ⟨hw, hl⟩ := hinv.balOk x hxm
        constructor
        · show 0 ≤ x.wallet_balance + amount
          linarith
        · exact hl
    · intro c hc
      obtain ⟨hs, hne, hec, heo⟩ := hinv.chOk c hc
      refine ⟨hs, hne, ?_, ?_⟩
      · refine exists_id_updateUser db uid _ ?_ _ hec
        intro x
        rfl
      · refine exists_id_updateUser db uid _ ?_ _ heo
        intro x
        rfl
    · intro m hm
      obtain ⟨hs, hne, hec, heo, hp, hwp, hw⟩ := hinv.mOk m hm
      refine ⟨hs, hne, ?_, ?_, hp, hwp, hw⟩
      · refine exists_id_updateUser db uid _ ?_ _ hec
        intro x
        rfl
      · refine exists_id_updateUser db uid _ ?_ _ heo
        intro x
        rfl

theorem withdraw_ok_inv (db db2 : DB) (uid : Nat) (amount : ℚ)
    (h : withdraw db uid amount = .ok db2) (hinv : Inv db) : Inv db2 := by
  unfold withdraw at h
  have h1 : ¬ (amount < 500) := fun hc => by
    rw [if_pos hc] at h; exact Except.noConfusion h
  rw [if_neg h1] at h
  cases hf : db.users.find? (fun u => decide (u.id = uid)) with
  | none =>
    simp only [hf] at h
    exact Except.noConfusion h
  | some user =>
    simp only [hf] at h
    have h2 : ¬ (user.wallet_balance < amount) := fun hc => by
      rw [if_pos hc] at h; exact Except.noConfusion h
    rw [if_neg h2] at h
    rw [Except.ok.injEq] at h
    subst h
    refine ⟨?_, ?_, ?_, ?_⟩
    · refine idsNodup_updateUser db uid _ ?_ hinv.idsNodup
      intro x
      rfl
    · intro u hu
      rcases mem_updateFirst _ _ _ u hu with hmem | ⟨x, hx, rfl⟩
      · exact hinv.balOk u hmem
      · have hxeq : x = user := by
          rw [hx] at hf
          exact Option.some.inj hf
        subst hxeq
        obtain ⟨hw, hl⟩ := hinv.balOk x (List.mem_of_find?_eq_some hx)
        have h3 := not_lt.mp h2
        constructor
        · show 0 ≤ x.wallet_balance - amount
          linarith
        · exact hl
    · intro c hc
      obtain ⟨hs, hne, hec, heo⟩ := hinv.chOk c hc
      refine ⟨hs, hne, ?_, ?_⟩
      · refine exists_id_updateUser db uid _ ?_ _ hec
        intro x
        rfl
      · refine exists_id_updateUser db uid _ ?_ _ heo
        intro x
        rfl
    · intro m hm
      obtain ⟨hs, hne, hec, heo, hp, hwp, hw⟩ := hinv.mOk m hm
      refine ⟨hs, hne, ?_, ?_, hp, hwp, hw⟩
      · refine exists_id_updateUser db uid _ ?_ _ hec
        intro x
        rfl
      · refine exists_id_updateUser db uid _ ?_ _ heo
        intro x
        rfl

theorem sendChallenge_ok_inv (db db2 : DB) (now : Int) (callerId : Nat)
    (opponent_username : String) (stake_amount : ℚ) (time_control : String)
    (is_rated : Bool) (code : String)
    (h : sendChallenge db now callerId opponent_username stake_amount
      time_control is_rated code = .ok db2)
    (hinv : Inv db) : Inv db2 := by
  unfold sendChallenge at h
  have h1 : ¬ (opponent_username = "") := fun hc => by
    rw [if_pos hc] at h; exact Except.noConfusion h
  rw [if_neg h1] at h
  have h2 : ¬ (stake_amount < MIN_STAKE) := fun hc => by
    rw [if_pos hc] at h; exact Except.noConfusion h
  rw [if_neg h2] at h
  cases hopp : db.users.find? (fun u => decide (u.username = opponent_username)) with
  | none =>
    simp only [hopp] at h
    exact Except.noConfusion h
  | some opp =>
    simp only [hopp] at h
    have h3 : ¬ (opp.id = callerId) := fun hc => by
      rw [if_pos hc] at h; exact Except.noConfusion h
    rw [if_neg h3] at h
    cases huser : db.users.find? (fun u => decide (u.id = callerId)) with
    | none =>
      simp only [huser] at h
      exact Except.noConfusion h
    | some user =>
      simp only [huser] at h
      have h4 : ¬ (user.wallet_balance < stake_amount) := fun hc => by
        rw [if_pos hc] at h; exact Except.noConfusion h
      rw [if_neg h4] at h
      have h5 : ¬ ((db.challenges.find? (fun c =>
          decide (c.creator_id = callerId) && decide (c.opponent_id = opp.id) &&
          decide (c.status = ChallengeStatus.pending) &&
          decide (now < c.expires_at))).isSome = true) := fun hc => by
        rw [if_pos hc] at h; exact Except.noConfusion h
      rw [if_neg h5] at h
      rw [Except.ok.injEq] at h
      subst h
      have hstake : 0 ≤ stake_amount := by
        have h6 := not_lt.mp h2
        have hms : (0:ℚ) ≤ MIN_STAKE := by norm_num [MIN_STAKE]
        linarith
      refine ⟨hinv.idsNodup, hinv.balOk, ?_, hinv.mOk⟩
      intro c hc
      rcases List.mem_append.mp hc with hc2 | hc2
      · exact hinv.chOk c hc2
      · rw [List.mem_singleton] at hc2
        subst hc2
        have huid : user.id = callerId := by
          have := List.find?_some huser
          simpa using this
        refine ⟨hstake, ?_, ?_, ?_⟩
        · show callerId ≠ opp.id
          intro he
          exact h3 he.symm
        · exact ⟨user, List.mem_of_find?_eq_some huser, huid⟩
        · exact ⟨opp, List.mem_of_find?_eq_some hopp, rfl⟩

theorem declineChallenge_ok_inv (db db2 : DB) (callerId : Nat) (code : String)
    (h : declineChallenge db callerId code = .ok db2) (hinv : Inv db) : Inv db2 := by
  unfold declineChallenge at h
  cases hf : db.challenges.find? (fun c =>
      decide (c.challenge_code = code) &&
      decide (c.status = ChallengeStatus.pending)) with
  | none =>
    simp only [hf] at h
    exact Except.noConfusion h
  | some ch =>
    simp only [hf] at h
    have h1 : ¬ (ch.opponent_id ≠ callerId ∧ ch.creator_id ≠ callerId) := fun hc => by
      rw [if_pos hc] at h; exact Except.noConfusion h
    rw [if_neg h1] at h
    rw [Except.ok.injEq] at h
    subst h
    refine ⟨hinv.idsNodup, hinv.balOk, ?_, hinv.mOk⟩
    intro c hc
    rcases mem_updateFirst _ _ _ c hc with hmem | ⟨x, hx, rfl⟩
    · exact hinv.chOk c hmem
    · obtain ⟨hs, hne, hec, heo⟩ := hinv.chOk x (List.mem_of_find?_eq_some hx)
      exact ⟨hs, hne, hec, heo⟩

theorem cancelChallenge_ok_inv (db db2 : DB) (callerId : Nat) (code : String)
    (h : cancelChallenge db callerId code = .ok db2) (hinv : Inv db) : Inv db2 := by
  unfold cancelChallenge at h
  cases hf : db.challenges.find? (fun c =>
      decide (c.challenge_code = code) &&
      decide (c.status = ChallengeStatus.pending) &&
      decide (c.creator_id = callerId)) with
  | none =>
    simp only [hf] at h
    exact Except.noConfusion h
  | some ch =>
    simp only [hf] at h
    rw [Except.ok.injEq] at h
    subst h
    refine ⟨hinv.idsNodup, hinv.balOk, ?_, hinv.mOk⟩
    intro c hc
    rcases mem_updateFirst _ _ _ c hc with hmem | ⟨x, hx, rfl⟩
    · exact hinv.chOk c hmem
    · obtain ⟨hs, hne, hec, heo⟩ := hinv.chOk x (List.mem_of_find?_eq_some hx)
      exact ⟨hs, hne, hec, heo⟩


theorem pick2_cases (c1 c2 : Prop) [Decidable c1] [Decidable c2] (a b : Nat) :
    pick2 c1 c2 a b = none ∨ pick2 c1 c2 a b = some a ∨ pick2 c1 c2 a b = some b := by
  unfold pick2
  split
  · exact Or.inr (Or.inl rfl)
  · split
    · exact Or.inr (Or.inr rfl)
    · exact Or.inl rfl

theorem resolveWinner_cases (db : DB) (m : GameMatch) (g : LichessGame) :
    resolveWinner db m g = none ∨ resolveWinner db m g = some m.creator_id ∨
      resolveWinner db m g = some m.opponent_id := by
  unfold resolveWinner
  split
  · exact Or.inl rfl
  · split
    · exact pick2_cases _ _ _ _
    · split
      · exact pick2_cases _ _ _ _
      · exact Or.inl rfl

theorem contrib_eq_of (uid : Nat) (m1 m2 : GameMatch)
    (hs : m1.stake_amount = m2.stake_amount) (hc : m1.creator_id = m2.creator_id)
    (ho : m1.opponent_id = m2.opponent_id)
    (h1 : m1.status ≠ MatchStatus.disbursed) (h2 : m2.status ≠ MatchStatus.disbursed) :
    contrib uid m1 = contrib uid m2 := by
  unfold contrib
  rw [hs, hc, ho]
  by_cases hp : m2.creator_id = uid ∨ m2.opponent_id = uid
  · rw [if_pos ⟨h1, hp⟩, if_pos ⟨h2, hp⟩]
  · rw [if_neg (fun hcc => hp hcc.2), if_neg (fun hcc => hp hcc.2)]

theorem contrib_zero_of_disbursed (uid : Nat) (m : GameMatch)
    (h : m.status = MatchStatus.disbursed) : contrib uid m = 0 := by
  unfold contrib
  rw [if_neg]
  rintro ⟨hc, -⟩
  exact hc h

theorem submitResult_ok_inv (db db2 : DB) (now : Int) (callerId matchId : Nat)
    (lichess_game_id : String) (gameData : Option LichessGame)
    (h : submitResult db now callerId matchId lichess_game_id gameData = .ok db2)
    (hinv : Inv db) : Inv db2 := by
  unfold submitResult at h
  have h1 : ¬ (lichess_game_id = "") := fun hc => by
    rw [if_pos hc] at h; exact Except.noConfusion h
  rw [if_neg h1] at h
  cases hfind : db.gameMatches.find? (fun m => decide (m.id = matchId)) with
  | none =>
    simp only [hfind] at h
    exact Except.noConfusion h
  | some m =>
    simp only [hfind] at h
    have h2 : ¬ (m.creator_id ≠ callerId ∧ m.opponent_id ≠ callerId) := fun hc => by
      rw [if_pos hc] at h; exact Except.noConfusion h
    rw [if_neg h2] at h
    have h3 : ¬ (m.status ≠ MatchStatus.in_progress) := fun hc => by
      rw [if_pos hc] at h; exact Except.noConfusion h
    rw [if_neg h3] at h
    have hst : m.status = MatchStatus.in_progress := not_not.mp h3
    cases gameData with
    | none => exact Except.noConfusion h
    | some g =>
      rw [Except.ok.injEq] at h
      subst h
      have hmmem := List.mem_of_find?_eq_some hfind
      obtain ⟨hs0, hne, hec, heo, hp0, hwp0, -⟩ := hinv.mOk m hmmem
      have hnd1 : m.status ≠ MatchStatus.disbursed := by
        rw [hst]
        intro hc
        exact MatchStatus.noConfusion hc
      have hnd2 : (if g.winner = none then MatchStatus.draw
          else MatchStatus.awaiting_appeal) ≠ MatchStatus.disbursed := by
        split
        · intro hc; exact MatchStatus.noConfusion hc
        · intro hc; exact MatchStatus.noConfusion hc
      refine ⟨hinv.idsNodup, ?_, ?_, ?_⟩
      · intro u hu
        obtain ⟨hw, hl⟩ := hinv.balOk u hu
        refine ⟨hw, ?_⟩
        have hneed := lockedNeed_updateFirst u.id
          (fun mm => decide (mm.id = m.id))
          (fun mm => { mm with
            lichess_game_id := some lichess_game_id
            status := if g.winner = none then MatchStatus.draw
              else MatchStatus.awaiting_appeal
            winner_id := resolveWinner db m g
            appeal_deadline := some (now + APPEAL_PERIOD_MS) })
          db.gameMatches m (by
            rw [show m.id = matchId from by simpa using List.find?_some hfind]
            exact hfind)
        have hceq : contrib u.id ({ m with
            lichess_game_id := some lichess_game_id
            status := if g.winner = none then MatchStatus.draw
              else MatchStatus.awaiting_appeal
            winner_id := resolveWinner db m g
            appeal_deadline := some (now + APPEAL_PERIOD_MS) }) = contrib u.id m :=
          contrib_eq_of u.id _ m rfl rfl rfl hnd2 hnd1
        show lockedNeed u.id (updateFirst _ _ db.gameMatches) ≤ u.locked_balance
        rw [hneed, hceq]
        linarith
      · intro c hc
        exact hinv.chOk c hc
      · intro mm hmm
        rcases mem_updateFirst _ _ _ mm hmm with hmem | ⟨x, hx, rfl⟩
        · exact hinv.mOk mm hmem
        · have hxm : x = m := by
            rw [show m.id = matchId from by simpa using List.find?_some hfind] at hx
            rw [hx] at hfind
            exact Option.some.inj hfind
          subst hxm
          refine ⟨hs0, hne, hec, heo, hp0, hwp0, ?_⟩
          exact resolveWinner_cases db x g

theorem submitAppeal_ok_inv (db db2 : DB) (now : Int) (callerId matchId : Nat)
    (reason : String)
    (h : submitAppeal db now callerId matchId reason = .ok db2)
    (hinv : Inv db) : Inv db2 := by
  unfold submitAppeal at h
  cases hfind : db.gameMatches.find? (fun m => decide (m.id = matchId)) with
  | none =>
    simp only [hfind] at h
    exact Except.noConfusion h
  | some m =>
    simp only [hfind] at h
    have h2 : ¬ (m.creator_id ≠ callerId ∧ m.opponent_id ≠ callerId) := fun hc => by
      rw [if_pos hc] at h; exact Except.noConfusion h
    rw [if_neg h2] at h
    have h3 : ¬ (m.status ≠ MatchStatus.awaiting_appeal) := fun hc => by
      rw [if_pos hc] at h; exact Except.noConfusion h
    rw [if_neg h3] at h
    have hst : m.status = MatchStatus.awaiting_appeal := not_not.mp h3
    have h4 : ¬ (jsDate m.appeal_deadline < now) := fun hc => by
      rw [if_pos hc] at h; exact Except.noConfusion h
    rw [if_neg h4] at h
    have h5 : ¬ ((db.appeals.find? (fun a =>
        decide (a.match_id = m.id) && decide (a.user_id = callerId))).isSome = true) :=
      fun hc => by
        rw [if_pos hc] at h; exact Except.noConfusion h
    rw [if_neg h5] at h
    rw [Except.ok.injEq] at h
    subst h
    have hmmem := List.mem_of_find?_eq_some hfind
    obtain ⟨hs0, hne, hec, heo, hp0, hwp0, hwid⟩ := hinv.mOk m hmmem
    have hnd1 : m.status ≠ MatchStatus.disbursed := by
      rw [hst]
      intro hc
      exact MatchStatus.noConfusion hc
    have hnd2 : MatchStatus.appealed ≠ MatchStatus.disbursed := by
      intro hc
      exact MatchStatus.noConfusion hc
    refine ⟨hinv.idsNodup, ?_, ?_, ?_⟩
    · intro u hu
      obtain ⟨hw, hl⟩ := hinv.balOk u hu
      refine ⟨hw, ?_⟩
      have hneed := lockedNeed_updateFirst u.id
        (fun mm => decide (mm.id = m.id))
        (fun mm => { mm with status := MatchStatus.appealed })
        db.gameMatches m (by
          rw [show m.id = matchId from by simpa using List.find?_some hfind]
          exact hfind)
      have hceq : contrib u.id ({ m with status := MatchStatus.appealed }) =
          contrib u.id m :=
        contrib_eq_of u.id _ m rfl rfl rfl hnd2 hnd1
      show lockedNeed u.id (updateFirst _ _ db.gameMatches) ≤ u.locked_balance
      rw [hneed, hceq]
      linarith
    · intro c hc
      exact hinv.chOk c hc
    · intro mm hmm
      rcases mem_updateFirst _ _ _ mm hmm with hmem | ⟨x, hx, rfl⟩
      · exact hinv.mOk mm hmem
      · have hxm : x = m := by
          rw [show m.id = matchId from by simpa using List.find?_some hfind] at hx
          rw [hx] at hfind
          exact Option.some.inj hfind
        subst hxm
        exact ⟨hs0, hne, hec, heo, hp0, hwp0, hwid⟩


theorem idsNodup_double_update (a b : Nat) (fa fb : User → User)
    (hfaid : ∀ x, (fa x).id = x.id) (hfbid : ∀ x, (fb x).id = x.id)
    (l : List User) (h : (l.map (fun v => v.id)).Nodup) :
    ((updateFirst (fun z => decide (z.id = b)) fb
      (updateFirst (fun z => decide (z.id = a)) fa l)).map (fun v => v.id)).Nodup := by
  rw [map_updateFirst _ fb (fun v => v.id) hfbid,
    map_updateFirst _ fa (fun v => v.id) hfaid]
  exact h

theorem exists_id_double_update (a b : Nat) (fa fb : User → User)
    (hfaid : ∀ x, (fa x).id = x.id) (hfbid : ∀ x, (fb x).id = x.id)
    (l : List User) (i : Nat) (hex : ∃ u ∈ l, u.id = i) :
    ∃ u ∈ updateFirst (fun z => decide (z.id = b)) fb
      (updateFirst (fun z => decide (z.id = a)) fa l), u.id = i := by
  have s1 := exists_id_updateFirst (fun v => v.id) (fun z => decide (z.id = a))
    fa hfaid l i hex
  obtain ⟨u, hu, hui⟩ := exists_id_updateFirst (fun v => v.id)
    (fun z => decide (z.id = b)) fb hfbid _ i s1
  exact ⟨u, hu, hui⟩

theorem acceptChallenge_ok_inv (db db2 : DB) (now : Int) (callerId : Nat)
    (code : String)
    (h : acceptChallenge db now callerId code = .ok db2) (hinv : Inv db) : Inv db2 := by
  unfold acceptChallenge at h
  cases hch : db.challenges.find? (fun c =>
      decide (c.challenge_code = code) &&
      decide (c.status = ChallengeStatus.pending) &&
      decide (c.opponent_id = callerId)) with
  | none =>
    simp only [hch] at h
    exact Except.noConfusion h
  | some ch =>
    simp only [hch] at h
    have h1 : ¬ (ch.expires_at < now) := fun hc => by
      rw [if_pos hc] at h; exact Except.noConfusion h
    rw [if_neg h1] at h
    cases hopp : db.users.find? (fun u => decide (u.id = callerId)) with
    | none =>
      simp only [hopp] at h
      exact Except.noConfusion h
    | some opp =>
      simp only [hopp] at h
      have h2 : ¬ (opp.wallet_balance < ch.stake_amount) := fun hc => by
        rw [if_pos hc] at h; exact Except.noConfusion h
      rw [if_neg h2] at h
      cases hcr : db.users.find? (fun u => decide (u.id = ch.creator_id)) with
      | none =>
        simp only [hcr] at h
        exact Except.noConfusion h
      | some cr =>
        simp only [hcr] at h
        rw [Except.ok.injEq] at h
        subst h
        have hchmem := List.mem_of_find?_eq_some hch
        have hchopp : ch.opponent_id = callerId := by
          have hprops := List.find?_some hch
          simp only [Bool.and_eq_true, decide_eq_true_eq] at hprops
          exact hprops.2
        obtain ⟨hstake, hcne, hexc, hexo⟩ := hinv.chOk ch hchmem
        have husers1nd : ((updateFirst (fun z => decide (z.id = callerId))
            (lockAccepter ch.stake_amount) db.users).map (fun v => v.id)).Nodup := by
          rw [map_updateFirst (fun z => decide (z.id = callerId))
            (lockAccepter ch.stake_amount) (fun v => v.id) (fun x => rfl) db.users]
          exact hinv.idsNodup
        have hneed : ∀ uid, lockedNeed uid
            (db.gameMatches ++ [matchFromChallenge db.gameMatches ch]) =
            lockedNeed uid db.gameMatches +
              contrib uid (matchFromChallenge db.gameMatches ch) :=
          fun uid => lockedNeed_append uid _ _
        have hcond_c : (matchFromChallenge db.gameMatches ch).status ≠
            MatchStatus.disbursed ∧
            ((matchFromChallenge db.gameMatches ch).creator_id = ch.creator_id ∨
              (matchFromChallenge db.gameMatches ch).opponent_id = ch.creator_id) :=
          ⟨fun hcst => MatchStatus.noConfusion hcst, Or.inl rfl⟩
        have hcontrib_c : contrib ch.creator_id
            (matchFromChallenge db.gameMatches ch) = ch.stake_amount := by
          unfold contrib
          rw [if_pos hcond_c]
          rfl
        have hcond_o : (matchFromChallenge db.gameMatches ch).status ≠
            MatchStatus.disbursed ∧
            ((matchFromChallenge db.gameMatches ch).creator_id = callerId ∨
              (matchFromChallenge db.gameMatches ch).opponent_id = callerId) :=
          ⟨fun hcst => MatchStatus.noConfusion hcst, Or.inr hchopp⟩
        have hcontrib_o : contrib callerId
            (matchFromChallenge db.gameMatches ch) = ch.stake_amount := by
          unfold contrib
          rw [if_pos hcond_o]
          rfl
        have hcontrib_z : ∀ uid, uid ≠ callerId → uid ≠ ch.creator_id →
            contrib uid (matchFromChallenge db.gameMatches ch) = 0 := by
          intro uid hno hnc
          unfold contrib
          rw [if_neg]
          rintro ⟨-, hc | hc⟩
          · exact hnc hc.symm
          · have hc2 : ch.opponent_id = uid := hc
            exact hno (hchopp.symm.trans hc2).symm
        have husers : ∀ u ∈ updateFirst (fun z => decide (z.id = ch.creator_id))
            (lockCreator ch.stake_amount)
            (updateFirst (fun z => decide (z.id = callerId))
              (lockAccepter ch.stake_amount) db.users),
            0 ≤ u.wallet_balance ∧
            lockedNeed u.id (db.gameMatches ++
              [matchFromChallenge db.gameMatches ch]) ≤ u.locked_balance := by
          intro u hu
          rcases mem_updateFirst_by_id (fun v => v.id) ch.creator_id
              (lockCreator ch.stake_amount) _ husers1nd u hu with
            ⟨x2, hx2, rfl⟩ | ⟨hu1, hne2⟩
          · have hx2id : x2.id = ch.creator_id := by
              simpa using List.find?_some hx2
            rcases mem_updateFirst _ _ _ x2 (List.mem_of_find?_eq_some hx2) with
              hx2old | ⟨x1, hx1, rfl⟩
            · obtain ⟨hw2, hl2⟩ := hinv.balOk x2 hx2old
              rw [hx2id] at hl2
              constructor
              · exact hw2
              · show lockedNeed x2.id (db.gameMatches ++
                  [matchFromChallenge db.gameMatches ch]) ≤
                  x2.locked_balance + ch.stake_amount
                rw [hneed, hx2id, hcontrib_c]
                linarith
            · have hx1id : x1.id = callerId := by
                simpa using List.find?_some hx1
              have hbad : callerId = ch.creator_id := by
                rw [← hx1id]
                exact hx2id
              have : ch.creator_id = ch.opponent_id := by
                rw [hchopp]
                exact hbad.symm
              exact absurd this hcne
          · rcases mem_updateFirst_by_id (fun v => v.id) callerId
                (lockAccepter ch.stake_amount) db.users hinv.idsNodup u hu1 with
              ⟨x1, hx1, rfl⟩ | ⟨huold, hne1⟩
            · have hx1id : x1.id = callerId := by
                simpa using List.find?_some hx1
              have hx1eq : x1 = opp := by
                rw [hx1] at hopp
                exact Option.some.inj hopp
              obtain ⟨hw1, hl1⟩ := hinv.balOk x1 (List.mem_of_find?_eq_some hx1)
              rw [hx1id] at hl1
              constructor
              · show 0 ≤ x1.wallet_balance - ch.stake_amount
                have hle := not_lt.mp h2
                rw [← hx1eq] at hle
                linarith
              · show lockedNeed x1.id (db.gameMatches ++
                  [matchFromChallenge db.gameMatches ch]) ≤
                  x1.locked_balance + ch.stake_amount
                rw [hneed, hx1id, hcontrib_o]
                linarith
            · obtain ⟨hw, hl⟩ := hinv.balOk u huold
              refine ⟨hw, ?_⟩
              rw [hneed, hcontrib_z u.id hne1 hne2]
              linarith
        have htrans : ∀ i, (∃ u ∈ db.users, u.id = i) →
            ∃ u ∈ updateFirst (fun z => decide (z.id = ch.creator_id))
              (lockCreator ch.stake_amount)
              (updateFirst (fun z => decide (z.id = callerId))
                (lockAccepter ch.stake_amount) db.users), u.id = i :=
          fun i hex => exists_id_double_update callerId ch.creator_id
            (lockAccepter ch.stake_amount) (lockCreator ch.stake_amount)
            (fun x => rfl) (fun x => rfl) db.users i hex
        refine ⟨?_, husers, ?_, ?_⟩
        · exact idsNodup_double_update callerId ch.creator_id
            (lockAccepter ch.stake_amount) (lockCreator ch.stake_amount)
            (fun x => rfl) (fun x => rfl) db.users hinv.idsNodup
        · intro c hc
          rcases mem_updateFirst _ _ _ c hc with hmem | ⟨x, hx, rfl⟩
          · obtain ⟨hs, hne, hec, heo⟩ := hinv.chOk c hmem
            exact ⟨hs, hne, htrans _ hec, htrans _ heo⟩
          · obtain ⟨hs, hne, hec, heo⟩ := hinv.chOk x (List.mem_of_find?_eq_some hx)
            exact ⟨hs, hne, htrans _ hec, htrans _ heo⟩
        · intro mm hmm
          rcases List.mem_append.mp hmm with hmem | hmem
          · obtain ⟨hs, hne, hec, heo, hp, hwp, hw⟩ := hinv.mOk mm hmem
            exact ⟨hs, hne, htrans _ hec, htrans _ heo, hp, hwp, hw⟩
          · rw [List.mem_singleton] at hmem
            subst hmem
            refine ⟨hstake, hcne, htrans _ hexc, htrans _ hexo, le_refl 0, rfl,
              Or.inl rfl⟩


/-- Shared balance argument for settling a match: participant `a` receives
`ta ≥ 0` into available and releases the stake from locked; participant `b`
likewise with `tb`; the match is marked disbursed, so every other user's
locked requirement only shrinks. -/
theorem disburse_balOk (db : DB) (hinv : Inv db) (m : GameMatch)
    (hfind : db.gameMatches.find? (fun mm => decide (mm.id = m.id)) = some m)
    (a b : Nat) (hab : a ≠ b)
    (hpa : m.creator_id = a ∨ m.opponent_id = a)
    (hpb : m.creator_id = b ∨ m.opponent_id = b)
    (fa fb : User → User) (ta tb : ℚ) (hta : 0 ≤ ta) (htb : 0 ≤ tb)
    (hfaid : ∀ x, (fa x).id = x.id) (hfbid : ∀ x, (fb x).id = x.id)
    (hfaw : ∀ x, (fa x).wallet_balance = x.wallet_balance + ta)
    (hfbw : ∀ x, (fb x).wallet_balance = x.wallet_balance + tb)
    (hfal : ∀ x, (fa x).locked_balance = x.locked_balance - m.stake_amount)
    (hfbl : ∀ x, (fb x).locked_balance = x.locked_balance - m.stake_amount)
    (hmstat : m.status ≠ MatchStatus.disbursed) :
    ∀ u ∈ updateFirst (fun z => decide (z.id = b)) fb
        (updateFirst (fun z => decide (z.id = a)) fa db.users),
      0 ≤ u.wallet_balance ∧
      lockedNeed u.id (updateFirst (fun mm => decide (mm.id = m.id))
        markDisbursed db.gameMatches) ≤ u.locked_balance := by
  have hmmem := List.mem_of_find?_eq_some hfind
  have hstake := (hinv.mOk m hmmem).1
  have hneed : ∀ uid, lockedNeed uid (updateFirst (fun mm => decide (mm.id = m.id))
      markDisbursed db.gameMatches) =
      lockedNeed uid db.gameMatches - contrib uid m + contrib uid (markDisbursed m) :=
    fun uid => lockedNeed_updateFirst uid _ markDisbursed _ m hfind
  have hdz : ∀ uid, contrib uid (markDisbursed m) = 0 :=
    fun uid => contrib_zero_of_disbursed uid (markDisbursed m) rfl
  intro u hu
  rcases mem_updateFirst _ _ _ u hu with hu1 | ⟨x2, hx2, rfl⟩
  · rcases mem_updateFirst _ _ _ u hu1 with huold | ⟨x1, hx1, rfl⟩
    · obtain ⟨hw, hl⟩ := hinv.balOk u huold
      refine ⟨hw, ?_⟩
      rw [hneed, hdz]
      have hcn := contrib_nonneg u.id m hstake
      linarith
    · have hx1id : x1.id = a := by simpa using List.find?_some hx1
      obtain ⟨hw, hl⟩ := hinv.balOk x1 (List.mem_of_find?_eq_some hx1)
      have hcm : contrib x1.id m = m.stake_amount := by
        rw [hx1id]
        unfold contrib
        rw [if_pos ⟨hmstat, hpa⟩]
      constructor
      · rw [hfaw]
        linarith
      · rw [hfaid, hneed, hdz, hcm, hfal]
        linarith
  · have hx2id : x2.id = b := by simpa using List.find?_some hx2
    rcases mem_updateFirst _ _ _ x2 (List.mem_of_find?_eq_some hx2) with
      hx2old | ⟨x1, hx1, rfl⟩
    · obtain ⟨hw, hl⟩ := hinv.balOk x2 hx2old
      have hcm : contrib x2.id m = m.stake_amount := by
        rw [hx2id]
        unfold contrib
        rw [if_pos ⟨hmstat, hpb⟩]
      constructor
      · rw [hfbw]
        linarith
      · rw [hfbid, hneed, hdz, hcm, hfbl]
        linarith
    · have hx1id : x1.id = a := by simpa using List.find?_some hx1
      have hx1b : x1.id = b := by
        rw [← hfaid x1]
        exact hx2id
      exact absurd (hx1id.symm.trans hx1b) hab

theorem processDisbursement_ok_inv (db db2 : DB) (now : Int)
    (callerId matchId : Nat)
    (h : processDisbursement db now callerId matchId = .ok db2)
    (hinv : Inv db) : Inv db2 := by
  unfold processDisbursement at h
  cases hfind : db.gameMatches.find? (fun mm => decide (mm.id = matchId)) with
  | none =>
    simp only [hfind] at h
    exact Except.noConfusion h
  | some m =>
    have hid : m.id = matchId := by simpa using List.find?_some hfind
    subst hid
    simp only [hfind] at h
    have hg1 : ¬ (m.status ≠ MatchStatus.awaiting_appeal ∧
        m.status ≠ MatchStatus.draw) := fun hc => by
      rw [if_pos hc] at h; exact Except.noConfusion h
    rw [if_neg hg1] at h
    have hg2 : ¬ (m.status = MatchStatus.awaiting_appeal ∧
        m.appeal_deadline.isSome = true ∧ now < jsDate m.appeal_deadline) :=
      fun hc => by
        rw [if_pos hc] at h; exact Except.noConfusion h
    rw [if_neg hg2] at h
    have hg3 : ¬ (m.status = MatchStatus.awaiting_appeal ∧
        m.appeal_deadline.isSome = true ∧
        (db.appeals.find? (fun a =>
          decide (a.match_id = m.id) &&
          decide (a.status = AppealStatus.pending))).isSome = true) :=
      fun hc => by
        rw [if_pos hc] at h; exact Except.noConfusion h
    rw [if_neg hg3] at h
    cases hcc : db.users.find? (fun u => decide (u.id = m.creator_id)) with
    | none =>
      simp only [hcc] at h
      exact Except.noConfusion h
    | some cu =>
      simp only [hcc] at h
      cases hoo : db.users.find? (fun u => decide (u.id = m.opponent_id)) with
      | none =>
        simp only [hoo] at h
        exact Except.noConfusion h
      | some ou =>
        simp only [hoo] at h
        have hmmem := List.mem_of_find?_eq_some hfind
        obtain ⟨hstake, hne, hexc, hexo, hp0, hwp0, hwdisj⟩ := hinv.mOk m hmmem
        have hmok_pres : ∀ mm ∈ updateFirst (fun z => decide (z.id = m.id))
            markDisbursed db.gameMatches,
            0 ≤ mm.stake_amount ∧ mm.creator_id ≠ mm.opponent_id ∧
            (∃ u ∈ db.users, u.id = mm.creator_id) ∧
            (∃ u ∈ db.users, u.id = mm.opponent_id) ∧
            0 ≤ mm.payout_amount ∧ mm.winner_payout = none ∧
            (mm.winner_id = none ∨ mm.winner_id = some mm.creator_id ∨
              mm.winner_id = some mm.opponent_id) := by
          intro mm hmm
          rcases mem_updateFirst _ _ _ mm hmm with hmem | ⟨x, hx, rfl⟩
          · exact hinv.mOk mm hmem
          · have hxm : x = m := by
              rw [hx] at hfind
              exact Option.some.inj hfind
            subst hxm
            exact ⟨hstake, hne, hexc, hexo, hp0, hwp0, hwdisj⟩
        by_cases hdraw : m.status = MatchStatus.draw
        · rw [if_pos hdraw] at h
          rw [Except.ok.injEq] at h
          subst h
          have hmstat : m.status ≠ MatchStatus.disbursed := by
            rw [hdraw]
            intro hc
            exact MatchStatus.noConfusion hc
          have hbal := disburse_balOk db hinv m hfind m.creator_id m.opponent_id
            hne (Or.inl rfl) (Or.inr rfl)
            (refundDraw m.stake_amount) (refundDraw m.stake_amount)
            m.stake_amount m.stake_amount hstake hstake
            (fun x => rfl) (fun x => rfl) (fun x => rfl) (fun x => rfl)
            (fun x => rfl) (fun x => rfl) hmstat
          have htrans : ∀ i, (∃ u ∈ db.users, u.id = i) →
              ∃ u ∈ updateFirst (fun z => decide (z.id = m.opponent_id))
                (refundDraw m.stake_amount)
                (updateFirst (fun z => decide (z.id = m.creator_id))
                  (refundDraw m.stake_amount) db.users), u.id = i :=
            fun i hex => exists_id_double_update m.creator_id m.opponent_id
              (refundDraw m.stake_amount) (refundDraw m.stake_amount)
              (fun x => rfl) (fun x => rfl) db.users i hex
          refine ⟨?_, hbal, ?_, ?_⟩
          · exact idsNodup_double_update m.creator_id m.opponent_id
              (refundDraw m.stake_amount) (refundDraw m.stake_amount)
              (fun x => rfl) (fun x => rfl) db.users hinv.idsNodup
          · intro c hc
            obtain ⟨hs, hne2, hec, heo⟩ := hinv.chOk c hc
            exact ⟨hs, hne2, htrans _ hec, htrans _ heo⟩
          · intro mm hmm
            obtain ⟨hs, hne2, hec, heo, hp, hwp, hw⟩ := hmok_pres mm hmm
            exact ⟨hs, hne2, htrans _ hec, htrans _ heo, hp, hwp, hw⟩
        · rw [if_neg hdraw] at h
          have hstat : m.status = MatchStatus.awaiting_appeal := by
            rcases not_and_or.mp hg1 with hc | hc
            · exact not_not.mp hc
            · exact absurd (not_not.mp hc) hdraw
          have hmstat : m.status ≠ MatchStatus.disbursed := by
            rw [hstat]
            intro hc
            exact MatchStatus.noConfusion hc
          cases hwid : m.winner_id with
          | none =>
            simp only [hwid] at h
            rw [Except.ok.injEq] at h
            subst h
            refine ⟨hinv.idsNodup, ?_, ?_, ?_⟩
            · intro u hu
              obtain ⟨hw, hl⟩ := hinv.balOk u hu
              refine ⟨hw, ?_⟩
              have hneed := lockedNeed_updateFirst u.id
                (fun mm => decide (mm.id = m.id)) markDisbursed db.gameMatches m hfind
              have hdz := contrib_zero_of_disbursed u.id (markDisbursed m) rfl
              have hcn := contrib_nonneg u.id m hstake
              show lockedNeed u.id (updateFirst _ markDisbursed db.gameMatches) ≤
                u.locked_balance
              rw [hneed, hdz]
              linarith
            · intro c hc
              exact hinv.chOk c hc
            · exact hmok_pres
          | some wid =>
            simp only [hwid] at h
            cases hwu : db.users.find? (fun u => decide (u.id = wid)) with
            | none =>
              simp only [hwu] at h
              exact Except.noConfusion h
            | some w =>
              simp only [hwu] at h
              rw [Except.ok.injEq] at h
              subst h
              have hwim : w.id = wid := by simpa using List.find?_some hwu
              have hpa : m.creator_id = wid ∨ m.opponent_id = wid := by
                rcases hwdisj with hwd | hwd | hwd
                · rw [hwid] at hwd
                  exact Option.noConfusion hwd
                · rw [hwid] at hwd
                  exact Or.inl (Option.some.inj hwd).symm
                · rw [hwid] at hwd
                  exact Or.inr (Option.some.inj hwd).symm
              have hcred : 0 ≤ jsOrQ m.winner_payout m.payout_amount := by
                rw [hwp0]
                exact hp0
              have hloser : (m.creator_id =
                    (if w.id = m.creator_id then m.opponent_id else m.creator_id) ∨
                  m.opponent_id =
                    (if w.id = m.creator_id then m.opponent_id else m.creator_id)) ∧
                  wid ≠ (if w.id = m.creator_id then m.opponent_id
                    else m.creator_id) := by
                rcases hpa with hc | hc
                · rw [if_pos (hwim.trans hc.symm)]
                  refine ⟨Or.inr rfl, ?_⟩
                  rw [← hc]
                  exact hne
                · rw [if_neg
                      (fun hcc => hne (((hwim.trans hc.symm).symm.trans hcc).symm))]
                  refine ⟨Or.inl rfl, ?_⟩
                  rw [← hc]
                  intro hcc
                  exact hne hcc.symm
              have hbal := disburse_balOk db hinv m hfind wid
                (if w.id = m.creator_id then m.opponent_id else m.creator_id)
                hloser.2 hpa hloser.1
                (creditWinner (jsOrQ m.winner_payout m.payout_amount) m.stake_amount)
                (debitLoser m.stake_amount)
                (jsOrQ m.winner_payout m.payout_amount) 0 hcred (le_refl 0)
                (fun x => rfl) (fun x => rfl) (fun x => rfl)
                (fun x => (add_zero _).symm)
                (fun x => rfl) (fun x => rfl) hmstat
              have htrans : ∀ i, (∃ u ∈ db.users, u.id = i) →
                  ∃ u ∈ updateFirst (fun z => decide (z.id =
                      (if w.id = m.creator_id then m.opponent_id else m.creator_id)))
                    (debitLoser m.stake_amount)
                    (updateFirst (fun z => decide (z.id = wid))
                      (creditWinner (jsOrQ m.winner_payout m.payout_amount)
                        m.stake_amount) db.users), u.id = i :=
                fun i hex => exists_id_double_update wid
                  (if w.id = m.creator_id then m.opponent_id else m.creator_id)
                  (creditWinner (jsOrQ m.winner_payout m.payout_amount)
                    m.stake_amount)
                  (debitLoser m.stake_amount)
                  (fun x => rfl) (fun x => rfl) db.users i hex
              refine ⟨?_, hbal, ?_, ?_⟩
              · exact idsNodup_double_update wid
                  (if w.id = m.creator_id then m.opponent_id else m.creator_id)
                  (creditWinner (jsOrQ m.winner_payout m.payout_amount)
                    m.stake_amount)
                  (debitLoser m.stake_amount)
                  (fun x => rfl) (fun x => rfl) db.users hinv.idsNodup
              · intro c hc
                obtain ⟨hs, hne2, hec, heo⟩ := hinv.chOk c hc
                exact ⟨hs, hne2, htrans _ hec, htrans _ heo⟩
              · intro mm hmm
                obtain ⟨hs, hne2, hec, heo, hp, hwp, hw2⟩ := hmok_pres mm hmm
                exact ⟨hs, hne2, htrans _ hec, htrans _ heo, hp, hwp, hw2⟩


theorem applyOp_inv (db : DB) (op : Op) (hinv : Inv db) : Inv (applyOp db op) := by
  unfold applyOp
  cases hr : runOp db op with
  | error e2 => exact hinv
  | ok db2 =>
    cases op with
    | register u e pw ph fn => exact registerUser_ok_inv db db2 u e pw ph fn hr hinv
    | deposit c a => exact deposit_ok_inv db db2 c a hr hinv
    | withdraw c a => exact withdraw_ok_inv db db2 c a hr hinv
    | send now c o s tc r code =>
      exact sendChallenge_ok_inv db db2 now c o s tc r code hr hinv
    | accept now c code => exact acceptChallenge_ok_inv db db2 now c code hr hinv
    | decline c code => exact declineChallenge_ok_inv db db2 c code hr hinv
    | cancel c code => exact cancelChallenge_ok_inv db db2 c code hr hinv
    | submit now c mid gid g => exact submitResult_ok_inv db db2 now c mid gid g hr hinv
    | appealFile now c mid r => exact submitAppeal_ok_inv db db2 now c mid r hr hinv
    | disburse now c mid => exact processDisbursement_ok_inv db db2 now c mid hr hinv

theorem applyOps_inv (ops : List Op) (db : DB) (hinv : Inv db) :
    Inv (applyOps db ops) := by
  induction ops generalizing db with
  | nil => exact hinv
  | cons op rest ih => exact ih (applyOp db op) (applyOp_inv db op hinv)

/-- C9: starting from the empty store, after any sequence of the defined
operations (register, deposit, withdraw, challenge send / accept / decline /
cancel, result submission, appeal, disbursement) every account's available
wallet balance and its locked balance are both non-negative. -/
theorem c9_balances_nonneg (ops : List Op) (u : User)
    (hu : u ∈ (applyOps emptyDB ops).users) :
    0 ≤ u.wallet_balance ∧ 0 ≤ u.locked_balance := by
  have hinv := applyOps_inv ops emptyDB inv_empty
  obtain ⟨hw, hl⟩ := hinv.balOk u hu
  refine ⟨hw, le_trans ?_ hl⟩
  exact lockedNeed_nonneg u.id _ (fun m hm => (hinv.mOk m hm).1)

/-- C9 witness: after registering one account, that account's wallet and
locked balances are non-negative. -/
theorem c9_balances_nonneg_witness :
    0 ≤ (freshUser emptyDB "carol" "c@x.co" "0123456787" "Carol C").wallet_balance ∧
    0 ≤ (freshUser emptyDB "carol" "c@x.co" "0123456787" "Carol C").locked_balance :=
  c9_balances_nonneg
    [Op.register "carol" "c@x.co" "secret1" "0123456787" "Carol C"]
    (freshUser emptyDB "carol" "c@x.co" "0123456787" "Carol C")
    (by
      have h : (applyOps emptyDB
          [Op.register "carol" "c@x.co" "secret1" "0123456787" "Carol C"]).users =
          [freshUser emptyDB "carol" "c@x.co" "0123456787" "Carol C"] := rfl
      rw [h]
      exact List.mem_singleton.mpr rfl)

end ChessBetting
